import Mathlib

/-!
Verification development for the TaskIt agent core: the idempotent
action-dispatch layer (`main/agent/idempotency.py`), the agent tools
(`main/agent/agent_tools.py`), the dispatch endpoint
(`main/views/agent_views.py`) and the conversation memory
(`main/agent/memory_utils.py`), shallowly embedded in Lean 4.

Machine-level conventions: Python integers are `Int`/`Nat`; 32-bit
arithmetic inside SHA-256 is `Nat` reduced `% 2^32`; Python `dict`s are
association lists; Python strings are Lean `String`/`List Char`.
-/

namespace TaskIt

/-! ## SHA-256 (model of Python `hashlib.sha256(...).hexdigest()`)

`idempotency.sha256_hex` delegates to `hashlib`, which implements
FIPS 180-4 SHA-256 over the UTF-8 encoding of the string.  The model
below implements the same function over `Nat` words reduced mod `2^32`. -/

/-- Reduce to a 32-bit word. -/
def w32 (n : Nat) : Nat := n % 4294967296

/-- 32-bit right rotation. -/
def rotr32 (x n : Nat) : Nat := w32 ((x >>> n) ||| (x <<< (32 - n)))

/-- 32-bit bitwise complement. -/
def not32 (x : Nat) : Nat := x ^^^ 4294967295

def bigSigma0 (x : Nat) : Nat := (rotr32 x 2) ^^^ (rotr32 x 13) ^^^ (rotr32 x 22)
def bigSigma1 (x : Nat) : Nat := (rotr32 x 6) ^^^ (rotr32 x 11) ^^^ (rotr32 x 25)
def smallSigma0 (x : Nat) : Nat := (rotr32 x 7) ^^^ (rotr32 x 18) ^^^ (x >>> 3)
def smallSigma1 (x : Nat) : Nat := (rotr32 x 17) ^^^ (rotr32 x 19) ^^^ (x >>> 10)

/-- The 64 SHA-256 round constants. -/
def shaK : List Nat :=
  [1116352408, 1899447441, 3049323471, 3921009573, 961987163, 1508970993,
   2453635748, 2870763221, 3624381080, 310598401, 607225278, 1426881987,
   1925078388, 2162078206, 2614888103, 3248222580, 3835390401, 4022224774,
   264347078, 604807628, 770255983, 1249150122, 1555081692, 1996064986,
   2554220882, 2821834349, 2952996808, 3210313671, 3336571891, 3584528711,
   113926993, 338241895, 666307205, 773529912, 1294757372, 1396182291,
   1695183700, 1986661051, 2177026350, 2456956037, 2730485921, 2820302411,
   3259730800, 3345764771, 3516065817, 3600352804, 4094571909, 275423344,
   430227734, 506948616, 659060556, 883997877, 958139571, 1322822218,
   1537002063, 1747873779, 1955562222, 2024104815, 2227730452, 2361852424,
   2428436474, 2756734187, 3204031479, 3329325298]

/-- The initial SHA-256 hash state. -/
def shaH0 : List Nat :=
  [1779033703, 3144134277, 1013904242, 2773480762,
   1359893119, 2600822924, 528734635, 1541459225]

/-- Extend a 16-word block to the 64-word message schedule (`n` words to add). -/
def extendW (ws : List Nat) : Nat → List Nat
  | 0 => ws
  | n + 1 =>
      let i := ws.length
      let w := w32 (smallSigma1 (ws.getD (i - 2) 0) + ws.getD (i - 7) 0 +
                    smallSigma0 (ws.getD (i - 15) 0) + ws.getD (i - 16) 0)
      extendW (ws ++ [w]) n

/-- One SHA-256 compression round on the 8-word working state. -/
def shaRound (st : List Nat) (kw : Nat × Nat) : List Nat :=
  match st with
  | [a, b, c, d, e, f, g, h] =>
      let t1 := w32 (h + bigSigma1 e + ((e &&& f) ^^^ (not32 e &&& g)) + kw.1 + kw.2)
      let t2 := w32 (bigSigma0 a + ((a &&& b) ^^^ (a &&& c) ^^^ (b &&& c)))
      [w32 (t1 + t2), a, b, c, w32 (d + t1), e, f, g]
  | other => other

/-- Compress one 16-word block into the running hash value. -/
def shaCompress (H : List Nat) (block : List Nat) : List Nat :=
  let st := (shaK.zip (extendW block 48)).foldl shaRound H
  (H.zip st).map (fun p => w32 (p.1 + p.2))

/-- Big-endian 4-byte groups to 32-bit words. -/
def bytesToWords : List Nat → List Nat
  | b0 :: b1 :: b2 :: b3 :: rest =>
      (b0 * 16777216 + b1 * 65536 + b2 * 256 + b3) :: bytesToWords rest
  | _ => []

/-- Big-endian 8-byte rendering of a length in bits. -/
def be64 (n : Nat) : List Nat :=
  [(n >>> 56) % 256, (n >>> 48) % 256, (n >>> 40) % 256, (n >>> 32) % 256,
   (n >>> 24) % 256, (n >>> 16) % 256, (n >>> 8) % 256, n % 256]

/-- SHA-256 padding: `0x80`, zeros to 56 mod 64, then the 64-bit bit length. -/
def shaPad (msg : List Nat) : List Nat :=
  msg ++ [0x80] ++ List.replicate ((119 - msg.length % 64) % 64) 0 ++ be64 (msg.length * 8)

/-- Fold the compression function over `fuel` 64-byte blocks. -/
def shaBlocks (H : List Nat) (bytes : List Nat) : Nat → List Nat
  | 0 => H
  | n + 1 => shaBlocks (shaCompress H (bytesToWords (bytes.take 64))) (bytes.drop 64) n

/-- SHA-256 digest (8 words) of a byte string. -/
def sha256Words (msg : List Nat) : List Nat :=
  let padded := shaPad msg
  shaBlocks shaH0 padded (padded.length / 64)

/-- UTF-8 encoding of one Unicode code point. -/
def utf8EncodeCp (c : Nat) : List Nat :=
  if c < 0x80 then [c]
  else if c < 0x800 then [0xC0 ||| (c >>> 6), 0x80 ||| (c &&& 0x3F)]
  else if c < 0x10000 then
    [0xE0 ||| (c >>> 12), 0x80 ||| ((c >>> 6) &&& 0x3F), 0x80 ||| (c &&& 0x3F)]
  else
    [0xF0 ||| (c >>> 18), 0x80 ||| ((c >>> 12) &&& 0x3F),
     0x80 ||| ((c >>> 6) &&& 0x3F), 0x80 ||| (c &&& 0x3F)]

/-- UTF-8 bytes of a string (model of Python `s.encode("utf-8")`). -/
def strBytes (s : String) : List Nat :=
  s.data.flatMap (fun c => utf8EncodeCp c.toNat)

/-- Lowercase hex digit. -/
def hexDigit (n : Nat) : Char :=
  if n < 10 then Char.ofNat (48 + n) else Char.ofNat (87 + n % 16)

/-- Eight lowercase hex digits of a 32-bit word. -/
def hex8 (w : Nat) : List Char :=
  [hexDigit ((w >>> 28) &&& 15), hexDigit ((w >>> 24) &&& 15),
   hexDigit ((w >>> 20) &&& 15), hexDigit ((w >>> 16) &&& 15),
   hexDigit ((w >>> 12) &&& 15), hexDigit ((w >>> 8) &&& 15),
   hexDigit ((w >>> 4) &&& 15), hexDigit (w &&& 15)]

/-- `idempotency.sha256_hex`: hex digest of the UTF-8 bytes of `s`. -/
def sha256_hex (s : String) : String :=
  ⟨(sha256Words (strBytes s)).flatMap hex8⟩

example : sha256_hex "abc" =
    "ba7816bf8f01cfea414140de5dae2223b00361a396177a9cb410ff61f20015ad" := by decide

example : sha256_hex "" =
    "e3b0c44298fc1c149afbf4c8996fb92427ae41e4649b934ca495991b7852b855" := by decide

/-! ## Normalization (`main/agent/idempotency.py`)

`_WS_RE = re.compile(r"\s+")`; `normalize_title` does
`_WS_RE.sub(" ", s).strip().casefold()` after mapping falsy input to `""`.
The whitespace class is modelled by the six ASCII whitespace characters
Python's `\s` matches on this data; `casefold` is modelled by ASCII
lowercasing, which coincides with `str.casefold` on ASCII text. -/

/-- The characters matched by Python's regex class `\s` (ASCII range). -/
def pyIsSpace (c : Char) : Bool :=
  c = ' ' || c = '\t' || c = '\n' || c = '\r' || c = '\x0b' || c = '\x0c'

/-- One-pass whitespace-run collapsing; the flag records whether the scan
is inside a whitespace run (whose first character already emitted the
single replacement space). -/
def collapseAux : Bool → List Char → List Char
  | _, [] => []
  | inRun, c :: cs =>
      if pyIsSpace c then
        if inRun then collapseAux true cs else ' ' :: collapseAux true cs
      else c :: collapseAux false cs

/-- `_WS_RE.sub(" ", s)`: replace every maximal whitespace run by one space. -/
def collapseWS (l : List Char) : List Char := collapseAux false l

/-- Python `str.strip()` on a character list. -/
def pyStrip (l : List Char) : List Char :=
  ((l.dropWhile pyIsSpace).reverse.dropWhile pyIsSpace).reverse

/-- Model of `str.casefold` on one character (ASCII lowercasing). -/
def foldChar (c : Char) : Char :=
  if 65 ≤ c.toNat ∧ c.toNat ≤ 90 then Char.ofNat (c.toNat + 32) else c

/-- `idempotency.normalize_title`; the argument is `Optional[str]`, and
`if not s` maps both `None` and `""` to `""`. -/
def normalize_title (s : Option String) : String :=
  match s with
  | none => ""
  | some str =>
      if str = "" then ""
      else ⟨(pyStrip (collapseWS str.data)).map foldChar⟩

/-- One pass producing the effect of `s.replace("\r\n", "\n").replace("\r", "\n")`. -/
def normNewlines : List Char → List Char
  | '\r' :: '\n' :: rest => '\n' :: normNewlines rest
  | '\r' :: rest => '\n' :: normNewlines rest
  | c :: rest => c :: normNewlines rest
  | [] => []

/-- `idempotency.normalize_body`: normalize newlines, then strip. -/
def normalize_body (s : Option String) : String :=
  match s with
  | none => ""
  | some str =>
      if str = "" then ""
      else ⟨pyStrip (normNewlines str.data)⟩

/-! ## `stable_json` (`idempotency.py`)

`json.dumps(obj, sort_keys=True, ensure_ascii=False, separators=(",", ":"))`,
specialized to the payload shape `make_key` serializes: a five-key object
whose `sig` value is a string-to-string object.  CPython escapes `\`, `"`,
and control characters; with `ensure_ascii=False` everything else is kept
verbatim. -/

/-- CPython `json` escaping of a single character. -/
def jsonEscChar (c : Char) : List Char :=
  if c = '\\' then ['\\', '\\']
  else if c = '"' then ['\\', '"']
  else if c = '\n' then ['\\', 'n']
  else if c = '\r' then ['\\', 'r']
  else if c = '\t' then ['\\', 't']
  else if c.toNat = 8 then ['\\', 'b']
  else if c.toNat = 12 then ['\\', 'f']
  else if c.toNat < 32 then
    ['\\', 'u', '0', '0', hexDigit (c.toNat / 16), hexDigit (c.toNat % 16)]
  else [c]

/-- JSON string escaping. -/
def jsonEscape (s : String) : String := ⟨s.data.flatMap jsonEscChar⟩

/-- A JSON string literal. -/
def jsonStr (s : String) : String := "\"" ++ jsonEscape s ++ "\""

/-- Insert a key/value pair into a key-sorted association list. -/
def insertByKey (p : String × String) : List (String × String) → List (String × String)
  | [] => [p]
  | q :: qs => if p.1 < q.1 then p :: q :: qs else q :: insertByKey p qs

/-- Sort an association list by key (Python `sort_keys=True`). -/
def sortByKey : List (String × String) → List (String × String)
  | [] => []
  | p :: ps => insertByKey p (sortByKey ps)

/-- JSON rendering of the signature dict, keys sorted, compact separators. -/
def sigJson (sig : List (String × String)) : String :=
  "\x7b" ++
    String.intercalate ","
      ((sortByKey sig).map (fun p => jsonStr p.1 ++ ":" ++ jsonStr p.2)) ++
  "\x7d"

/-- `stable_json` of the `make_key` payload
`{"v": 1, "user_id": ..., "request_id": ..., "tool": ..., "sig": ...}`:
`sort_keys=True` orders the keys `request_id, sig, tool, user_id, v`. -/
def stable_json_payload (user_id : Int) (request_id tool : String)
    (sig : List (String × String)) : String :=
  "\x7b\"request_id\":" ++ jsonStr request_id ++
  ",\"sig\":" ++ sigJson sig ++
  ",\"tool\":" ++ jsonStr tool ++
  ",\"user_id\":" ++ toString user_id ++
  ",\"v\":1\x7d"

/-- Value of a lowercase hex digit character. -/
def hexVal (c : Char) : Nat := if c.toNat ≤ 57 then c.toNat - 48 else c.toNat - 87

/-- Inverse of the two-character escapes. -/
def unescPair (c : Char) : Char :=
  if c = 'n' then '\n'
  else if c = 'r' then '\r'
  else if c = 't' then '\t'
  else if c = 'b' then '\x08'
  else if c = 'f' then '\x0c'
  else c

/-- Decoder of the JSON string escaping, used to prove the escaping
uniquely decodable (hence injective). -/
def jsonUnesc : List Char → List Char
  | '\\' :: 'u' :: _ :: _ :: h3 :: h4 :: rest =>
      Char.ofNat (hexVal h3 * 16 + hexVal h4) :: jsonUnesc rest
  | '\\' :: c2 :: rest => unescPair c2 :: jsonUnesc rest
  | c :: rest => c :: jsonUnesc rest
  | [] => []

/-! ## IdempotencyContext (`idempotency.py`)

The per-request cache is a Python dict, modelled as an association list;
the tool bodies are world-passing functions `σ → σ × String` (every tool
body in `agent_tools.py` returns a string), so that "the execute function
ran" is visible as an application of `fn` to the world. -/

/-- `IdempotencyContext` dataclass: identity fields (the dict is the state). -/
structure IdempotencyContext where
  user_id : Int
  request_id : String

/-- The noop sentinel returned on a cache hit in `IdempotencyContext.run`. -/
def noopSentinel : String :=
  "STATUS: noop\nMESSAGE: This exact action was already executed in this request. Do NOT call this tool again.\nSTOP"

/-- The request-scoped cache: key to stored result. -/
abbrev Cache := List (String × String)

/-- `IdempotencyContext.make_key`. -/
def IdempotencyContext.make_key (ctx : IdempotencyContext) (tool_name : String)
    (signature : List (String × String)) : String :=
  sha256_hex (stable_json_payload ctx.user_id ctx.request_id tool_name signature)

/-- `IdempotencyContext.run`: on a cache hit return the noop sentinel and
leave both the world and the cache untouched; on a miss run `fn` once,
store its result under the key, and return that result. -/
def IdempotencyContext.run {σ : Type} (ctx : IdempotencyContext) (tool_name : String)
    (signature : List (String × String)) (fn : σ → σ × String)
    (st : σ × Cache) : (σ × Cache) × String :=
  let key := ctx.make_key tool_name signature
  match st.2.lookup key with
  | some _ => (st, noopSentinel)
  | none =>
      let r := fn st.1
      ((r.1, (key, r.2) :: st.2), r.2)

/-- `n` successive dispatches of the same logical call through the cache,
returning the final state and the list of returned results. -/
def runCalls {σ : Type} (ctx : IdempotencyContext) (tool_name : String)
    (signature : List (String × String)) (fn : σ → σ × String) :
    Nat → (σ × Cache) → (σ × Cache) × List String
  | 0, st => (st, [])
  | n + 1, st =>
      let step := ctx.run tool_name signature fn st
      let rest := runCalls ctx tool_name signature fn n step.1
      (rest.1, step.2 :: rest.2)

/-! ## Dispatch endpoint post-processing (`main/views/agent_views.py`)

Lines 106–112 of `agent_endpoint`: `ai_output` is bound to the executor
output BEFORE the max-iterations check; the check rewrites only
`result["output"]`; both the persisted model turn and the JSON reply are
built from `ai_output`. -/

/-- Python `str.startswith`. -/
def pyStartswith (s pre : String) : Bool := pre.data.isPrefixOf s.data

/-- What `agent_endpoint` does with the executor output. -/
structure AgentResponse where
  reply : String
  persisted_ai : String
  result_output : String

/-- Model of `agent_views.agent_endpoint` lines 106–112. -/
def agent_endpoint_post (executor_output : String) : AgentResponse :=
  let ai_output := executor_output
  let result_output :=
    if pyStartswith executor_output "Agent stopped due to max iterations" then "Done"
    else executor_output
  { reply := ai_output, persisted_ai := ai_output, result_output := result_output }

/-- The raw forced-stop output produced by the executor at the iteration
ceiling (`early_stopping_method="force"`). -/
def rawStopSignal : String := "Agent stopped due to max iterations."

/-! ## Civil calendar and Asia/Jerusalem time (`agent_tools.py`)

Python `datetime` values are modelled as integers.  An *aware* datetime
denotes an instant: UTC epoch microseconds.  After
`_normalize_incoming_dt` every datetime in `agent_tools.py` carries the
`Asia/Jerusalem` zone, and Python's wall-clock `timedelta` arithmetic and
field access act on its *wall clock*; so converted values are handled as
wall-clock epoch microseconds (microseconds since 1970-01-01T00:00 on the
Jerusalem wall clock).  Proleptic-Gregorian day/date conversions follow
the civil-calendar algorithms `datetime` implements; the Jerusalem UTC
offset implements the current (post-2013) statutory rule of the IANA
`Asia/Jerusalem` zone: UTC+2 standard, UTC+3 daylight time between the
Friday before the last Sunday of March at 02:00 and the last Sunday of
October at 02:00. -/

/-- Year of era (0–399) from day of era, by estimate and adjust. -/
def yoeOfDoe (doe : Nat) : Nat :=
  let e0 := doe / 365
  let e1 := if doe < 365 * e0 + e0 / 4 - e0 / 100 then e0 - 1 else e0
  if 400 ≤ e1 then 399 else e1

/-- First day of era of a (march-based) year of era. -/
def fdOfYoe (yoe : Nat) : Nat := 365 * yoe + yoe / 4 - yoe / 100

/-- Day of era (0–146096) of a day number. -/
def doeOf (z : Int) : Nat := ((z + 719468) % 146097).toNat

/-- 400-year era of a day number. -/
def eraOf (z : Int) : Int := (z + 719468) / 146097

/-- Day of (march-based) year from day of era. -/
def doyOfDoe (doe : Nat) : Nat := doe - fdOfYoe (yoeOfDoe doe)

/-- Shifted month index (0 = March … 11 = February) from day of year. -/
def mpOfDoy (doy : Nat) : Nat := (5 * doy + 2) / 153

/-- Day of month (1-based) from day of year. -/
def dayOfDoy (doy : Nat) : Nat := doy - (153 * mpOfDoy doy + 2) / 5 + 1

/-- Civil month (1–12) from day of year. -/
def monthOfDoy (doy : Nat) : Nat :=
  if mpOfDoy doy < 10 then mpOfDoy doy + 3 else mpOfDoy doy - 9

/-- Civil date `(year, month, day)` of a day number (days since 1970-01-01,
proleptic Gregorian). -/
def civilFromDays (z : Int) : Int × Nat × Nat :=
  ((yoeOfDoe (doeOf z) : Int) + eraOf z * 400 +
     (if monthOfDoy (doyOfDoe (doeOf z)) ≤ 2 then 1 else 0),
   monthOfDoy (doyOfDoe (doeOf z)), dayOfDoy (doyOfDoe (doeOf z)))

/-- Day number of a civil date (inverse of `civilFromDays`). -/
def daysFromCivil (y : Int) (m d : Nat) : Int :=
  let yAdj : Int := if m ≤ 2 then y - 1 else y
  let era : Int := yAdj / 400
  let yoe : Nat := (yAdj % 400).toNat
  let mp : Nat := if 2 < m then m - 3 else m + 9
  let doy : Nat := (153 * mp + 2) / 5 + d - 1
  let doe : Nat := fdOfYoe yoe + doy
  era * 146097 + (doe : Int) - 719468

/-- Day number (days since epoch) of the last Sunday on or before day `z`
(1970-01-04, day 3, was a Sunday). -/
def lastSundayOnOrBefore (z : Int) : Int := z - (z - 3) % 7

/-- Jerusalem DST start for year `y`, as standard-wall epoch seconds:
02:00 on the Friday before the last Sunday of March. -/
def ilDstStartStd (y : Int) : Int :=
  (lastSundayOnOrBefore (daysFromCivil y 3 31) - 2) * 86400 + 7200

/-- Jerusalem DST end for year `y`, as standard-wall epoch seconds:
02:00 IDT (= 01:00 standard) on the last Sunday of October. -/
def ilDstEndStd (y : Int) : Int :=
  lastSundayOnOrBefore (daysFromCivil y 10 31) * 86400 + 3600

/-- UTC offset (seconds) of `Asia/Jerusalem` at UTC epoch second `t`. -/
def ilOffsetSeconds (t : Int) : Int :=
  let tStd := t + 7200
  let y := (civilFromDays (tStd / 86400)).1
  if ilDstStartStd y ≤ tStd ∧ tStd < ilDstEndStd y then 10800 else 7200

/-- Jerusalem wall-clock epoch microseconds of a UTC instant (microseconds). -/
def ilWallUsec (t : Int) : Int := t + ilOffsetSeconds (t / 1000000) * 1000000

/-- Decimal digit character. -/
def digitChar (n : Nat) : Char := Char.ofNat (48 + n % 10)

/-- Two-digit zero-padded field (`strftime` `%m`/`%d`/`%H`/`%M`). -/
def pad2 (n : Nat) : String := ⟨[digitChar (n / 10), digitChar n]⟩

/-- Four-digit zero-padded field (`strftime` `%Y` for 1000–9999). -/
def pad4 (n : Nat) : String :=
  ⟨[digitChar (n / 1000), digitChar (n / 100), digitChar (n / 10), digitChar n]⟩

/-- `YYYY-MM-DDTHH:MM` rendering of a wall-clock epoch microsecond value. -/
def renderLocalMinute (wus : Int) : String :=
  let days := wus / 86400000000
  let rem := (wus % 86400000000).toNat
  let c := civilFromDays days
  pad4 c.1.toNat ++ "-" ++ pad2 c.2.1 ++ "-" ++ pad2 c.2.2 ++ "T" ++
    pad2 (rem / 3600000000) ++ ":" ++ pad2 (rem / 60000000 % 60)

/-- `YYYY-MM-DD HH:MM` rendering (the `strftime` used by `get_tasks` and
`get_events` display). -/
def renderLocalMinuteSp (wus : Int) : String :=
  let days := wus / 86400000000
  let rem := (wus % 86400000000).toNat
  let c := civilFromDays days
  pad4 c.1.toNat ++ "-" ++ pad2 c.2.1 ++ "-" ++ pad2 c.2.2 ++ " " ++
    pad2 (rem / 3600000000) ++ ":" ++ pad2 (rem / 60000000 % 60)

/-- `agent_tools._canonical_local_minute`: convert the instant to
`Asia/Jerusalem`, truncate to the minute (`replace(second=0,
microsecond=0)` discards sub-minute wall fields), and render
`%Y-%m-%dT%H:%M`.  Input: UTC epoch microseconds. -/
def canonical_local_minute (t : Int) : String :=
  renderLocalMinute (ilWallUsec t)

/-- The local wall minute number read by the canonical rendering. -/
def wallMinute (wus : Int) : Int := wus / 60000000

/-- Python `str.strip()`. -/
def pyStripS (s : String) : String := ⟨pyStrip s.data⟩

/-- `%H:%M` rendering of a wall-clock epoch microsecond value. -/
def renderHM (wus : Int) : String :=
  let rem := (wus % 86400000000).toNat
  pad2 (rem / 3600000000) ++ ":" ++ pad2 (rem / 60000000 % 60)

/-- Six-digit zero-padded microseconds. -/
def pad6 (n : Nat) : String :=
  ⟨[digitChar (n / 100000), digitChar (n / 10000), digitChar (n / 1000),
    digitChar (n / 100), digitChar (n / 10), digitChar n]⟩

/-- `datetime.isoformat()` of a Jerusalem wall-clock value: second (and, when
nonzero, microsecond) precision plus the zone's UTC-offset suffix. -/
def isoformatIL (wus : Int) : String :=
  let ws := wus / 1000000
  let us := (wus % 1000000).toNat
  let days := ws / 86400
  let rem := (ws % 86400).toNat
  let c := civilFromDays days
  pad4 c.1.toNat ++ "-" ++ pad2 c.2.1 ++ "-" ++ pad2 c.2.2 ++ "T" ++
    pad2 (rem / 3600) ++ ":" ++ pad2 (rem / 60 % 60) ++ ":" ++ pad2 (rem % 60) ++
    (if us = 0 then "" else "." ++ pad6 us) ++
    (if ilOffsetSeconds (ws - 7200) = 10800 then "+03:00" else "+02:00")

/-- Stable ascending insertion by integer key (later elements go after
equal-key earlier ones). -/
def insertByIntKey {α : Type} (key : α → Int) (a : α) : List α → List α
  | [] => [a]
  | b :: bs => if key b ≤ key a then b :: insertByIntKey key a bs else a :: b :: bs

/-- Stable ascending sort by integer key (SQL `ORDER BY field`). -/
def sortByIntKey {α : Type} (key : α → Int) (l : List α) : List α :=
  l.foldl (fun acc a => insertByIntKey key a acc) []

/-- Stable descending insertion by integer key. -/
def insertByIntKeyDesc {α : Type} (key : α → Int) (a : α) : List α → List α
  | [] => [a]
  | b :: bs => if key a ≤ key b then b :: insertByIntKeyDesc key a bs else a :: b :: bs

/-- Stable descending sort by integer key (SQL `ORDER BY -field`). -/
def sortByIntKeyDesc {α : Type} (key : α → Int) (l : List α) : List α :=
  l.foldl (fun acc a => insertByIntKeyDesc key a acc) []

/-! ## Agent tools (`main/agent/agent_tools.py`)

Record shapes for the storage collaborator.  `main/models.py` is not among
the sources; the record fields are modelled from the spec (§3, §6) and
from the fields the tools read and write.  Datetimes on records are
Jerusalem wall-clock epoch microseconds (see the calendar section). -/

/-- Modelled from the spec: the stored Task record (storage collaborator,
spec §6); `created_at` is the datetime field `get_tasks` selects when the
model declares no due date field. -/
structure TaskRec where
  user_id : Int
  title : String
  task_type : String
  status : String
  created_at : Int

/-- Modelled from the spec: the stored Event record (storage collaborator,
spec §6). -/
structure EventRec where
  user_id : Int
  title : String
  start_datetime : Int
  end_datetime : Int
  all_day : Bool
  description : String

/-- Modelled from the spec: the stored Subject record. -/
structure SubjectRec where
  id : Int
  user_id : Int
  title : String

/-- Modelled from the spec: the stored Note record. -/
structure NoteRec where
  id : Int
  subject_id : Int
  title : String
  content : String

/-- Modelled from the spec: one indexed chunk held by the retrieval
collaborator (spec §6), with the metadata `rag_utils._note_to_documents`
attaches; `score` is the relevance the external embedding model assigns to
the chunk for the query at hand. -/
structure DocRec where
  user_id : Int
  page_content : String
  subject_title : Option String
  note_title : Option String
  score : Int

/-- Body of the `add_task` tool (`_do`): validate the task type, create the
task for the bound user, report. -/
def add_task_do (uid : Int) (title task_type : String) (now : Int)
    (db : List TaskRec) : List TaskRec × String :=
  if task_type ≠ "daily" ∧ task_type ≠ "long_term" then
    (db, "Invalid task type '" ++ task_type ++ "'. Please choose 'daily' or 'long_term'.")
  else
    (db ++ [⟨uid, title, task_type, "", now⟩],
     (if task_type = "daily" then "Daily" else "Long-term") ++ " task '" ++ title ++ "' created.")

/-- The `add_task` tool: dispatch the body through the idempotency cache
under the signature `{"title": normalize_title(title)}`. -/
def add_task (ctx : IdempotencyContext) (title task_type : String) (now : Int)
    (st : List TaskRec × Cache) : (List TaskRec × Cache) × String :=
  ctx.run "add_task" [("title", normalize_title (some title))]
    (add_task_do ctx.user_id title task_type now) st

/-- `add_event` lines 76–80: the all-day branch snaps to local midnight and
spans exactly one day; otherwise a non-positive interval is replaced by
start plus one hour. -/
def add_event_times (s e : Int) (all_day : Bool) : Int × Int :=
  if all_day then
    let mid := s / 86400000000 * 86400000000
    (mid, mid + 86400000000)
  else if e ≤ s then (s, s + 3600000000)
  else (s, e)

/-- Body of the `add_event` tool (`_do`): `get_or_create` on
`(user, title.strip(), start, end, all_day)` with the description as a
creation default, reporting created versus already-exists. -/
def add_event_do (uid : Int) (title : String) (s e : Int) (all_day : Bool)
    (desc : String) (db : List EventRec) : List EventRec × String :=
  let t := pyStripS title
  match db.find? (fun ev =>
      ev.user_id == uid && ev.title == t && ev.start_datetime == s &&
      ev.end_datetime == e && ev.all_day == all_day) with
  | some ev =>
      (db, "STATUS: success\nMESSAGE: Event already exists.\nTITLE: " ++ ev.title ++
           "\nSTART: " ++ isoformatIL s ++ "\nEND: " ++ isoformatIL e ++ "\nSTOP")
  | none =>
      (db ++ [⟨uid, t, s, e, all_day, desc⟩],
       "STATUS: success\nMESSAGE: Event created.\nTITLE: " ++ t ++
       "\nSTART: " ++ isoformatIL s ++ "\nEND: " ++ isoformatIL e ++ "\nSTOP")

/-- The `add_event` tool.  `s`/`e` are the outputs of
`_normalize_incoming_dt(parse_datetime(...))` (parsing is the external
`django.utils.dateparse` boundary): `none` models an unparseable value.
Missing title/start/end short-circuits to an error string without touching
the cache; otherwise the adjusted times feed both the signature (title plus
canonical start/end minutes; for Jerusalem-zone values
`_canonical_local_minute` is the wall-minute rendering) and the body. -/
def add_event (ctx : IdempotencyContext) (title : String) (s e : Option Int)
    (all_day : Bool) (description : String)
    (st : List EventRec × Cache) : (List EventRec × Cache) × String :=
  match s, e with
  | some s0, some e0 =>
      if title = "" then (st, "[ERROR] title, start, end are required")
      else
        let p := add_event_times s0 e0 all_day
        ctx.run "add_event"
          [("title", normalize_title (some title)),
           ("start", renderLocalMinute p.1), ("end", renderLocalMinute p.2)]
          (add_event_do ctx.user_id title p.1 p.2 all_day (pyStripS description)) st
  | _, _ => (st, "[ERROR] title, start, end are required")

/-- All-digit check used by the date parsers. -/
def allDigits (l : List Char) : Bool := l.all (fun c => 48 ≤ c.toNat && c.toNat ≤ 57)

/-- Digit-list value. -/
def digitsVal (l : List Char) : Nat := l.foldl (fun a c => a * 10 + (c.toNat - 48)) 0

/-- Gregorian month length. -/
def daysInMonth (y : Int) (m : Nat) : Nat :=
  if m = 2 then (if y % 4 = 0 ∧ (y % 100 ≠ 0 ∨ y % 400 = 0) then 29 else 28)
  else if m = 4 ∨ m = 6 ∨ m = 9 ∨ m = 11 then 30
  else 31

/-- `datetime.strptime(value, "%Y-%m-%d").date()` as a day number:
`%Y`/`%m`/`%d` accept 1–4 / 1–2 / 1–2 digits, and the date must be valid. -/
def parseDateYMD (s : String) : Option Int :=
  match s.splitOn "-" with
  | [ys, ms, ds] =>
      if allDigits ys.data && allDigits ms.data && allDigits ds.data &&
         decide (1 ≤ ys.length) && decide (ys.length ≤ 4) &&
         decide (1 ≤ ms.length) && decide (ms.length ≤ 2) &&
         decide (1 ≤ ds.length) && decide (ds.length ≤ 2) then
        let y := digitsVal ys.data
        let m := digitsVal ms.data
        let d := digitsVal ds.data
        if 1 ≤ y ∧ 1 ≤ m ∧ m ≤ 12 ∧ 1 ≤ d ∧ d ≤ daysInMonth y m then
          some (daysFromCivil y m d)
        else none
      else none
  | _ => none

/-- One displayed line of `get_tasks`. -/
def taskLine (t : TaskRec) : String :=
  let date_str := renderLocalMinuteSp t.created_at
  "- " ++ t.title ++
  (if t.task_type = "" then "" else " (type: " ++ t.task_type ++ ")") ++
  (if t.status = "" then "" else " [" ++ t.status ++ "]") ++
  " @ " ++ date_str

/-- The `get_tasks` tool: parse the local dates, swap a reversed range,
filter the bound user's tasks to the local window, order by the date
field, cap, and format.  The window instants are the code's
`make_aware(...time.min/time.max...)` bounds, expressed on the wall clock. -/
def get_tasks (db : List TaskRec) (uid : Int) (start_date end_date : String)
    (max_results : Nat) : String :=
  match parseDateYMD start_date, parseDateYMD end_date with
  | some sd0, some ed0 =>
      let sd := if ed0 < sd0 then ed0 else sd0
      let ed := if ed0 < sd0 then sd0 else ed0
      let lo := sd * 86400000000
      let hi := ed * 86400000000 + 86399999999
      let qs := (db.filter (fun t => t.user_id == uid)).filter
        (fun t => lo ≤ t.created_at && t.created_at ≤ hi)
      let qs := (sortByIntKey (fun t => t.created_at) qs).take max_results
      if qs.isEmpty then
        "No tasks found between " ++ start_date ++ " and " ++ end_date ++ "."
      else
        String.intercalate "\n"
          (("Tasks for " ++ start_date ++ " to " ++ end_date ++
            " (local time, capped at " ++ toString max_results ++ " results):") ::
           qs.map taskLine)
  | _, _ => "[ERROR] Invalid date format. Use 'YYYY-MM-DD'."

/-- One displayed line of `get_events`. -/
def eventLine (ev : EventRec) : String :=
  let desc := pyStripS ev.description
  "- " ++ renderLocalMinuteSp ev.start_datetime ++ " - " ++ renderHM ev.end_datetime ++
  " — " ++ ev.title ++ (if desc = "" then "" else " | " ++ (desc.take 80) ++ "...")

/-- The `get_events` tool from the point where the window is parsed
(`_parse_local_datetime_or_date` and `django.utils.dateparse` are the
parsing boundary): swap a reversed window, keep the bound user's events
overlapping it, order by start, cap, and format. -/
def get_events (db : List EventRec) (uid : Int) (start_local end_local : Int)
    (max_results : Nat) : String :=
  let s := if end_local < start_local then end_local else start_local
  let e := if end_local < start_local then start_local else end_local
  let qs := (db.filter (fun ev => ev.user_id == uid)).filter
    (fun ev => ev.start_datetime < e && s < ev.end_datetime)
  let qs := (sortByIntKey (fun ev => ev.start_datetime) qs).take max_results
  if qs.isEmpty then
    "No events found between " ++ renderLocalMinuteSp s ++ " and " ++
      renderLocalMinuteSp e ++ " (local time)."
  else
    String.intercalate "\n"
      ("Events:" ::
       ("Window: " ++ renderLocalMinuteSp s ++ " -> " ++ renderLocalMinuteSp e ++
        " (local time, capped at " ++ toString max_results ++ " results)") ::
       qs.map eventLine)

/-- Python substring containment (`pat in s`) on character lists,
structurally recursive. -/
def listContainsSub (pat : List Char) : List Char → Bool
  | [] => pat.isEmpty
  | c :: rest => pat.isPrefixOf (c :: rest) || listContainsSub pat rest

/-- Python `pat in s` on strings. -/
def pyIn (pat s : String) : Bool :=
  listContainsSub pat.data s.data

/-- Modelled from the spec: `main.stats_utils.detect_granularity` is
repository code outside `src/`; the spec (§2, non-goals) fixes only that
the analytics action selects a reporting granularity from the query text
alone, reading no stored records. -/
def detect_granularity (query : String) : String :=
  if pyIn "month" query then "monthly"
  else if pyIn "day" query then "daily"
  else "weekly"

/-- Modelled from the spec: `main.stats_utils.get_completion_rate(user,
granularity)` is repository code outside `src/`; per spec §2 it computes
completion statistics over the bound user's tasks only, so it reads
exactly the user-filtered task store (period bucketing is business logic
the spec leaves undefined; one aggregate percentage models it). -/
def get_completion_rate (db : List TaskRec) (uid : Int) : List Nat :=
  let mine := db.filter (fun t => t.user_id == uid)
  if mine.isEmpty then []
  else [100 * (mine.filter (fun t => t.status == "completed")).length / mine.length]

/-- Modelled from the spec: `main.stats_utils.get_completed_daily_tasks_count(user)`
is repository code outside `src/`; per spec §2 it reports the bound
user's most completed daily tasks, reading exactly the user-filtered
task store. -/
def get_completed_daily_tasks_count (db : List TaskRec) (uid : Int) : List String :=
  ((db.filter (fun t => t.user_id == uid)).filter
    (fun t => t.task_type == "daily" && t.status == "completed")).map (fun t => t.title)

/-- The `analyze_stats` tool: detect the granularity from the query, pull
the bound user's completion rate and most completed tasks, and report.
`rates[-1] if rates else 0` is the last-element-or-zero access. -/
def analyze_stats (db : List TaskRec) (uid : Int) (query : String) : String :=
  let granularity := detect_granularity query
  let rates := get_completion_rate db uid
  let top_tasks := get_completed_daily_tasks_count db uid
  let last_rate := rates.getLastD 0
  "Your latest " ++ granularity ++ " completion rate is " ++ toString last_rate ++
    "%. Your most completed tasks are: " ++ String.intercalate ", " top_tasks ++ "."

/-- Body of the `add_subject` tool (`_do`): report an error if the user
already has a subject with this exact title, otherwise create it. -/
def add_subject_do (uid : Int) (title : String) (fresh_id : Int)
    (db : List SubjectRec) : List SubjectRec × String :=
  if db.any (fun s => s.user_id == uid && s.title == title) then
    (db, "STATUS: error\nMESSAGE: Subject already exists.")
  else
    (db ++ [⟨fresh_id, uid, title⟩],
     "STATUS: success\nMESSAGE: Subject created.\nID: " ++ toString fresh_id ++ "\nSTOP")

/-- The `add_subject` tool: signature `{"title": normalize_title(title)}`. -/
def add_subject (ctx : IdempotencyContext) (title : String) (fresh_id : Int)
    (st : List SubjectRec × Cache) : (List SubjectRec × Cache) × String :=
  ctx.run "add_subject" [("title", normalize_title (some title))]
    (add_subject_do ctx.user_id title fresh_id) st

/-- Body of the `add_note` tool (`_do`): look up the user's subject by
exact title; error if absent, else create the note under it. -/
def add_note_do (uid : Int) (subject_title title body : String) (fresh_id : Int)
    (st : List SubjectRec × List NoteRec) : (List SubjectRec × List NoteRec) × String :=
  match st.1.find? (fun s => s.user_id == uid && s.title == subject_title) with
  | none => (st, "STATUS: error\nMESSAGE: Subject not found.")
  | some subj =>
      ((st.1, st.2 ++ [⟨fresh_id, subj.id, title, body⟩]),
       "STATUS: success\nMESSAGE: Note created.\nSUBJECT: " ++ subj.title ++
       "\nID: " ++ toString fresh_id ++ "\nSTOP")

/-- The `add_note` tool: signature is normalized subject and title plus the
content digest of the normalized body. -/
def add_note (ctx : IdempotencyContext) (subject_title title body : String)
    (fresh_id : Int) (st : (List SubjectRec × List NoteRec) × Cache) :
    ((List SubjectRec × List NoteRec) × Cache) × String :=
  ctx.run "add_note"
    [("subject_title", normalize_title (some subject_title)),
     ("title", normalize_title (some title)),
     ("body_hash", sha256_hex (normalize_body (some body)))]
    (add_note_do ctx.user_id subject_title title body fresh_id) st

/-- Modelled from the spec: the retrieval collaborator (spec §6) behind
`get_vectorstore().as_retriever(...)` — an exact-match filter on
`user_id`, relevance ordering, at most `top_k` results. -/
def retrieve (store : List DocRec) (uid : Int) (top_k : Nat) : List DocRec :=
  (sortByIntKeyDesc (fun d => d.score) (store.filter (fun d => d.user_id == uid))).take top_k

/-- One displayed line of `search_knowledge` (newlines in the chunk are
flattened to spaces). -/
def docLine (d : DocRec) : String :=
  "- Subject: " ++ d.subject_title.getD "Unknown subject" ++
  " | Note: " ++ d.note_title.getD "Untitled note" ++
  "\n  content: " ++ ⟨d.page_content.data.map (fun c => if c = '\n' then ' ' else c)⟩ ++ "..."

/-- The `search_knowledge` tool: retrieve with the user filter; zero
documents yield the explicit nothing-found message, otherwise the
formatted result list. -/
def search_knowledge (store : List DocRec) (uid : Int) (top_k : Nat) : String :=
  let docs := retrieve store uid top_k
  if docs.isEmpty then "No relevant notes found."
  else "Relevant notes:\n" ++ String.intercalate "\n" (docs.map docLine)

/-! ## Conversation memory (`main/agent/memory_utils.py`) -/

/-- Modelled from the spec: a stored `AgentChatMessage` row (spec §3
"Conversation Turn": role, content, owning user, session id, creation
timestamp). -/
structure ChatRow where
  user_id : Int
  session_id : String
  role : String
  content : String
  created_at : Int

/-- A LangChain chat message as `_rows_to_chat_history` builds them. -/
inductive ChatMsg
  | human (content : String)
  | ai (content : String)
  | system (content : String)
deriving DecidableEq

/-- `_rows_to_chat_history`: keep human/ai/system rows, skip unknown roles. -/
def rows_to_chat_history (rows : List ChatRow) : List ChatMsg :=
  rows.filterMap (fun r =>
    if r.role = "human" then some (.human r.content)
    else if r.role = "ai" then some (.ai r.content)
    else if r.role = "system" then some (.system r.content)
    else none)

/-- The rows `load_history_for_user` selects: the user's session rows,
ordered by descending creation time, capped, then flipped back to
chronological order. -/
def load_rows (db : List ChatRow) (uid : Int) (session_id : String)
    (max_messages : Nat) : List ChatRow :=
  let qs := sortByIntKeyDesc (fun r => r.created_at)
    (db.filter (fun r => r.user_id == uid && r.session_id == session_id))
  (qs.take max_messages).reverse

/-- `load_history_for_user`. -/
def load_history_for_user (db : List ChatRow) (uid : Int) (session_id : String)
    (max_messages : Nat) : List ChatMsg :=
  rows_to_chat_history (load_rows db uid session_id max_messages)

/-- `persist_turn`: append one human row then one model row; `t1`/`t2` are
the creation timestamps the storage layer assigns. -/
def persist_turn (db : List ChatRow) (uid : Int) (session_id user_text ai_text : String)
    (t1 t2 : Int) : List ChatRow :=
  db ++ [⟨uid, session_id, "human", user_text, t1⟩, ⟨uid, session_id, "ai", ai_text, t2⟩]

/-! ## Helper lemmas -/

theorem charOfNat_toNat {n : Nat} (h : n < 55296) : (Char.ofNat n).toNat = n := by
  have hv : n.isValidChar := Or.inl h
  simp [Char.ofNat, hv, Char.toNat, Char.ofNatAux, UInt32.toNat, UInt32.ofNat',
    BitVec.toNat_ofNat]

theorem str_ne_of_take (s t : String) (n : Nat)
    (h : s.data.take n ≠ t.data.take n) : s ≠ t :=
  fun he => h (he ▸ rfl)

/-- Strings whose first `n` characters already differ are different; used to
separate every real action result from the noop sentinel by its prefix. -/
theorem append_ne_sentinel (L tail : String) (n : Nat) (hL : n ≤ L.data.length)
    (h : L.data.take n ≠ noopSentinel.data.take n) : L ++ tail ≠ noopSentinel := by
  apply str_ne_of_take _ _ n
  rw [String.data_append, List.take_append_eq_append_take, Nat.sub_eq_zero_of_le hL,
    List.take_zero, List.append_nil]
  exact h

/-- A hit in the request-scoped cache short-circuits every later identical
dispatch: the state is untouched and every call returns the sentinel. -/
theorem runCalls_hit {σ : Type} (ctx : IdempotencyContext) (tool : String)
    (sig : List (String × String)) (fn : σ → σ × String) (n : Nat)
    (st : σ × Cache) (v : String)
    (hv : st.2.lookup (ctx.make_key tool sig) = some v) :
    runCalls ctx tool sig fn n st = (st, List.replicate n noopSentinel) := by
  induction n with
  | zero => rfl
  | succ m ih =>
      simp only [runCalls, IdempotencyContext.run, hv, ih, List.replicate]

/-- A miss executes the body once and stores its result. -/
theorem run_miss {σ : Type} (ctx : IdempotencyContext) (tool : String)
    (sig : List (String × String)) (fn : σ → σ × String) (st : σ × Cache)
    (hm : st.2.lookup (ctx.make_key tool sig) = none) :
    ctx.run tool sig fn st =
      (((fn st.1).1, (ctx.make_key tool sig, (fn st.1).2) :: st.2), (fn st.1).2) := by
  simp only [IdempotencyContext.run, hm]

theorem lookup_self_cons (k v : String) (c : Cache) :
    ((k, v) :: c).lookup k = some v := by
  simp [List.lookup]

/-- Dispatching the same logical call `n ≥ 1` times from a fresh request
cache executes the body exactly once: the world advances by one
application of `fn`, the first call returns the body's result, and calls
2..n return the sentinel. -/
theorem runCalls_fresh {σ : Type} (ctx : IdempotencyContext) (tool : String)
    (sig : List (String × String)) (fn : σ → σ × String) (s0 : σ) (m : Nat) :
    runCalls ctx tool sig fn (m + 1) (s0, []) =
      (((fn s0).1, [(ctx.make_key tool sig, (fn s0).2)]),
       (fn s0).2 :: List.replicate m noopSentinel) := by
  have hm : (([] : Cache)).lookup (ctx.make_key tool sig) = none := rfl
  simp only [runCalls]
  rw [run_miss ctx tool sig fn (s0, []) hm]
  rw [runCalls_hit ctx tool sig fn m _ (fn s0).2 (lookup_self_cons _ _ _)]

/-- No output of the `add_task` body is the noop sentinel. -/
theorem add_task_do_ne_noop (uid : Int) (title task_type : String) (now : Int)
    (db : List TaskRec) : (add_task_do uid title task_type now db).2 ≠ noopSentinel := by
  unfold add_task_do
  split
  · dsimp only
    simp only [String.append_assoc]
    exact append_ne_sentinel _ _ 3 (by decide) (by decide)
  · dsimp only
    by_cases h : task_type = "daily" <;>
      simp only [h, ite_true, ite_false, String.append_assoc] <;>
      exact append_ne_sentinel _ _ 3 (by decide) (by decide)

/-- No output of the `add_event` body is the noop sentinel. -/
theorem add_event_do_ne_noop (uid : Int) (title : String) (s e : Int)
    (all_day : Bool) (desc : String) (db : List EventRec) :
    (add_event_do uid title s e all_day desc db).2 ≠ noopSentinel := by
  simp only [add_event_do]
  split <;>
    dsimp only <;>
    simp only [String.append_assoc] <;>
    exact append_ne_sentinel _ _ 9 (by decide) (by decide)

/-- No output of the `add_subject` body is the noop sentinel. -/
theorem add_subject_do_ne_noop (uid : Int) (title : String) (fresh_id : Int)
    (db : List SubjectRec) : (add_subject_do uid title fresh_id db).2 ≠ noopSentinel := by
  unfold add_subject_do
  split
  · dsimp only
    decide
  · dsimp only
    simp only [String.append_assoc]
    exact append_ne_sentinel _ _ 9 (by decide) (by decide)

/-- No output of the `add_note` body is the noop sentinel. -/
theorem add_note_do_ne_noop (uid : Int) (subject_title title body : String)
    (fresh_id : Int) (st : List SubjectRec × List NoteRec) :
    (add_note_do uid subject_title title body fresh_id st).2 ≠ noopSentinel := by
  unfold add_note_do
  split
  · dsimp only
    decide
  · dsimp only
    simp only [String.append_assoc]
    exact append_ne_sentinel _ _ 9 (by decide) (by decide)

/-! ## Claim theorems -/

/-- C1: within one request-scoped idempotency cache, dispatching
`run(actionName, signature, executeFn)` N ≥ 2 times with the same action
name and equal signature executes the body exactly once — the first call
applies `fn` and returns and stores its result, the final world is that of
a single application, and calls 2..N return the noop sentinel without
re-invoking `fn` — and the sentinel is distinct from every result any
cached action body can produce. -/
theorem C1_at_most_once {σ : Type} (ctx : IdempotencyContext) (tool : String)
    (sig : List (String × String)) (fn : σ → σ × String) (s0 : σ) (n : Nat)
    (h : 2 ≤ n) :
    runCalls ctx tool sig fn n (s0, []) =
      (((fn s0).1, [(ctx.make_key tool sig, (fn s0).2)]),
       (fn s0).2 :: List.replicate (n - 1) noopSentinel) ∧
    (∀ uid title task_type now (db : List TaskRec),
      (add_task_do uid title task_type now db).2 ≠ noopSentinel) ∧
    (∀ uid title s e all_day desc (db : List EventRec),
      (add_event_do uid title s e all_day desc db).2 ≠ noopSentinel) ∧
    (∀ uid title fresh_id (db : List SubjectRec),
      (add_subject_do uid title fresh_id db).2 ≠ noopSentinel) ∧
    (∀ uid subject_title title body fresh_id st,
      (add_note_do uid subject_title title body fresh_id st).2 ≠ noopSentinel) := by
  obtain ⟨m, rfl⟩ : ∃ m, n = m + 1 := ⟨n - 1, by omega⟩
  refine ⟨?_, add_task_do_ne_noop, add_event_do_ne_noop, add_subject_do_ne_noop,
    add_note_do_ne_noop⟩
  simpa using runCalls_fresh ctx tool sig fn s0 m

theorem C1_at_most_once_witness :
    2 ≤ 2 ∧
    runCalls (⟨1, "r1"⟩ : IdempotencyContext) "add_task" [("title", "buy milk")]
        (fun _ : Unit => ((), "Daily task 'buy milk' created.")) 2 ((), []) =
      ((((), [(IdempotencyContext.make_key ⟨1, "r1"⟩ "add_task" [("title", "buy milk")],
          "Daily task 'buy milk' created.")]),
        "Daily task 'buy milk' created." :: List.replicate 1 noopSentinel)) :=
  ⟨by decide,
   (C1_at_most_once ⟨1, "r1"⟩ "add_task" [("title", "buy milk")]
      (fun _ : Unit => ((), "Daily task 'buy milk' created.")) () 2 (by decide)).1⟩

/-- C2 (code bug): when the executor stops at the iteration ceiling, the
endpoint's JSON reply is the raw "Agent stopped due to max iterations"
output, not the neutral "Done" — `ai_output` is bound before the
substitution and the reply is built from `ai_output`, so the substitution
only ever reaches the dead `result["output"]` slot. -/
theorem C2_raw_stop_signal_surfaced :
    (agent_endpoint_post rawStopSignal).reply = rawStopSignal ∧
    pyStartswith rawStopSignal "Agent stopped due to max iterations" = true ∧
    (agent_endpoint_post rawStopSignal).reply ≠ "Done" ∧
    (agent_endpoint_post rawStopSignal).result_output = "Done" :=
  ⟨rfl, by decide, by decide, by decide⟩

set_option maxRecDepth 4000 in
/-- C3 (counterexample): an error-kind result IS cached within the request.
With user 1 already owning subject "math", the first `add_subject` call
returns the error result, and the identical retry in the same request is
suppressed with the noop sentinel instead of executing again. -/
theorem C3_counterexample_failed_result_cached :
    (runCalls (⟨1, "r1"⟩ : IdempotencyContext) "add_subject" [("title", "math")]
        (add_subject_do 1 "math" 7) 2 ([⟨5, 1, "math"⟩], [])).2 =
      ["STATUS: error\nMESSAGE: Subject already exists.", noopSentinel] := by
  decide

/-- C3 (amended): a failed execution is cached exactly like a success:
within the request that produced it, an identical retry returns the noop
sentinel and does not execute again, the error result sitting in the
cache; retries become possible again only on a distinct request, whose
fresh cache executes the body anew. -/
theorem C3_failed_result_cached_retry_next_request {σ : Type}
    (ctx : IdempotencyContext) (tool : String) (sig : List (String × String))
    (fn : σ → σ × String) (s0 : σ)
    (hfail : pyStartswith (fn s0).2 "STATUS: error" = true) :
    (runCalls ctx tool sig fn 2 (s0, [])).2 = [(fn s0).2, noopSentinel] ∧
    (runCalls ctx tool sig fn 2 (s0, [])).1.2.lookup (ctx.make_key tool sig) =
      some (fn s0).2 ∧
    (∀ ctx' : IdempotencyContext, (ctx'.run tool sig fn (s0, [])).2 = (fn s0).2) := by
  have h : runCalls ctx tool sig fn 2 (s0, []) =
      (((fn s0).1, [(ctx.make_key tool sig, (fn s0).2)]),
       (fn s0).2 :: List.replicate 1 noopSentinel) := runCalls_fresh ctx tool sig fn s0 1
  refine ⟨by rw [h]; rfl, by rw [h]; exact lookup_self_cons _ _ _, ?_⟩
  intro ctx'
  rw [run_miss ctx' tool sig fn (s0, []) rfl]

theorem C3_failed_result_cached_retry_next_request_witness :
    (pyStartswith "STATUS: error\nMESSAGE: Subject already exists."
        "STATUS: error" = true) ∧
    ((runCalls (⟨1, "r1"⟩ : IdempotencyContext) "add_subject" [("title", "math")]
        (fun _ : Unit => ((), "STATUS: error\nMESSAGE: Subject already exists.")) 2
        ((), [])).2 =
      ["STATUS: error\nMESSAGE: Subject already exists.", noopSentinel] ∧
     (runCalls (⟨1, "r1"⟩ : IdempotencyContext) "add_subject" [("title", "math")]
        (fun _ : Unit => ((), "STATUS: error\nMESSAGE: Subject already exists.")) 2
        ((), [])).1.2.lookup
        (IdempotencyContext.make_key ⟨1, "r1"⟩ "add_subject" [("title", "math")]) =
      some "STATUS: error\nMESSAGE: Subject already exists." ∧
     (∀ ctx' : IdempotencyContext,
        (ctx'.run "add_subject" [("title", "math")]
          (fun _ : Unit => ((), "STATUS: error\nMESSAGE: Subject already exists."))
          ((), [])).2 = "STATUS: error\nMESSAGE: Subject already exists.")) :=
  ⟨by decide,
   C3_failed_result_cached_retry_next_request (⟨1, "r1"⟩ : IdempotencyContext)
     "add_subject" [("title", "math")]
     (fun _ : Unit => ((), "STATUS: error\nMESSAGE: Subject already exists.")) ()
     (by decide)⟩

/-- C8: a retrieval query whose search returns zero documents yields the
explicit, non-empty nothing-found status message, never an empty result. -/
theorem C8_zero_result_retrieval (store : List DocRec) (uid : Int) (top_k : Nat)
    (h : retrieve store uid top_k = []) :
    search_knowledge store uid top_k = "No relevant notes found." ∧
    search_knowledge store uid top_k ≠ "" := by
  unfold search_knowledge
  rw [h]
  exact ⟨rfl, by decide⟩

theorem C8_zero_result_retrieval_witness :
    retrieve [] 1 5 = [] ∧
    (search_knowledge [] 1 5 = "No relevant notes found." ∧
     search_knowledge [] 1 5 ≠ "") :=
  ⟨rfl, C8_zero_result_retrieval [] 1 5 rfl⟩

/-! ### Normalization lemmas for C5 -/

theorem char_toNat_inj {a b : Char} (h : a.toNat = b.toNat) : a = b :=
  Char.ext (UInt32.ext h)

theorem pyIsSpace_iff_toNat (c : Char) :
    pyIsSpace c = true ↔
      (c.toNat = 32 ∨ c.toNat = 9 ∨ c.toNat = 10 ∨ c.toNat = 13 ∨
       c.toNat = 11 ∨ c.toNat = 12) := by
  constructor
  · intro h
    simp only [pyIsSpace, Bool.or_eq_true, decide_eq_true_eq] at h
    rcases h with ((((h | h) | h) | h) | h) | h <;> subst h <;> simp
  · intro h
    have : c = ' ' ∨ c = '\t' ∨ c = '\n' ∨ c = '\r' ∨ c = '\x0b' ∨ c = '\x0c' := by
      rcases h with h | h | h | h | h | h
      · exact Or.inl (char_toNat_inj h)
      · exact Or.inr (Or.inl (char_toNat_inj h))
      · exact Or.inr (Or.inr (Or.inl (char_toNat_inj h)))
      · exact Or.inr (Or.inr (Or.inr (Or.inl (char_toNat_inj h))))
      · exact Or.inr (Or.inr (Or.inr (Or.inr (Or.inl (char_toNat_inj h)))))
      · exact Or.inr (Or.inr (Or.inr (Or.inr (Or.inr (char_toNat_inj h)))))
    rcases this with h | h | h | h | h | h <;> subst h <;> decide

theorem pyIsSpace_false_of_ge (c : Char) (h : 33 ≤ c.toNat) : pyIsSpace c = false := by
  cases hb : pyIsSpace c
  · rfl
  · exfalso
    rcases (pyIsSpace_iff_toNat c).1 hb with h2 | h2 | h2 | h2 | h2 | h2 <;> omega

theorem foldChar_toNat (c : Char) (h : 65 ≤ c.toNat ∧ c.toNat ≤ 90) :
    (foldChar c).toNat = c.toNat + 32 := by
  unfold foldChar
  rw [if_pos h]
  exact charOfNat_toNat (by omega)

theorem foldChar_space (c : Char) : pyIsSpace (foldChar c) = pyIsSpace c := by
  by_cases h : 65 ≤ c.toNat ∧ c.toNat ≤ 90
  · have h1 : (foldChar c).toNat = c.toNat + 32 := foldChar_toNat c h
    rw [pyIsSpace_false_of_ge c (by omega), pyIsSpace_false_of_ge _ (by omega)]
  · unfold foldChar
    rw [if_neg h]

theorem foldChar_idem (c : Char) : foldChar (foldChar c) = foldChar c := by
  by_cases h : 65 ≤ c.toNat ∧ c.toNat ≤ 90
  · have h1 : (foldChar c).toNat = c.toNat + 32 := foldChar_toNat c h
    unfold foldChar
    rw [if_neg (by rw [show (if 65 ≤ c.toNat ∧ c.toNat ≤ 90 then Char.ofNat (c.toNat + 32) else c) = foldChar c from rfl, h1]; omega)]
  · unfold foldChar
    rw [if_neg h, if_neg h]

theorem dropWhile_head_not (p : Char → Bool) (l : List Char) (c : Char)
    (h : (l.dropWhile p).head? = some c) : p c = false := by
  induction l with
  | nil => simp at h
  | cons a l ih =>
      rw [List.dropWhile_cons] at h
      by_cases hpa : p a = true
      · rw [if_pos hpa] at h
        exact ih h
      · rw [if_neg hpa] at h
        simp at h
        subst h
        simpa using hpa

theorem collapseAux_space_mem (l : List Char) :
    ∀ b, ∀ c ∈ collapseAux b l, pyIsSpace c = true → c = ' ' := by
  induction l with
  | nil => intro b c hc; simp [collapseAux] at hc
  | cons a l ih =>
      intro b c hc hs
      unfold collapseAux at hc
      by_cases ha : pyIsSpace a = true
      · rw [if_pos ha] at hc
        cases b with
        | true => exact ih true c hc hs
        | false =>
            rcases List.mem_cons.1 hc with rfl | hc
            · rfl
            · exact ih true c hc hs
      · rw [if_neg ha] at hc
        rcases List.mem_cons.1 hc with rfl | hc
        · rw [hs] at ha; exact absurd rfl ha
        · exact ih false c hc hs

/-- Inside a run, the next emitted character is never whitespace. -/
theorem collapseAux_true_head (l : List Char) (c : Char)
    (h : (collapseAux true l).head? = some c) : pyIsSpace c = false := by
  induction l with
  | nil => simp [collapseAux] at h
  | cons a l ih =>
      unfold collapseAux at h
      by_cases ha : pyIsSpace a = true
      · rw [if_pos ha] at h
        exact ih h
      · rw [if_neg ha] at h
        simp at h
        subst h
        simpa using ha

theorem collapseWS_head? (l : List Char) :
    (collapseWS l).head? = l.head?.map (fun c => if pyIsSpace c then ' ' else c) := by
  cases l with
  | nil => rfl
  | cons c cs =>
      unfold collapseWS collapseAux
      by_cases h : pyIsSpace c = true
      · rw [if_pos h]
        simp [h]
      · rw [if_neg h]
        simp [h]

theorem collapseWS_space_mem (l : List Char) :
    ∀ c ∈ collapseWS l, pyIsSpace c = true → c = ' ' :=
  collapseAux_space_mem l false

/-- The collapsed list has no two adjacent whitespace characters. -/
theorem collapseAux_chain (l : List Char) :
    ∀ b, List.Chain' (fun a b => ¬(pyIsSpace a = true ∧ pyIsSpace b = true))
      (collapseAux b l) := by
  induction l with
  | nil => intro b; simp [collapseAux]
  | cons a l ih =>
      intro b
      unfold collapseAux
      by_cases ha : pyIsSpace a = true
      · rw [if_pos ha]
        cases b with
        | true => exact ih true
        | false =>
            simp only [Bool.false_eq_true, if_false]
            rw [List.chain'_cons']
            refine ⟨?_, ih true⟩
            intro d hd
            have : pyIsSpace d = false := collapseAux_true_head l d hd
            simp [this]
      · rw [if_neg ha]
        rw [List.chain'_cons']
        refine ⟨?_, ih false⟩
        intro d _
        simp only [Bool.not_eq_true] at ha
        simp [ha]

theorem collapseWS_chain (l : List Char) :
    List.Chain' (fun a b => ¬(pyIsSpace a = true ∧ pyIsSpace b = true)) (collapseWS l) :=
  collapseAux_chain l false

theorem pyStrip_prefixOfDrop (l : List Char) : pyStrip l <+: l.dropWhile pyIsSpace := by
  unfold pyStrip
  have h : ((l.dropWhile pyIsSpace).reverse.dropWhile pyIsSpace) <:+
      (l.dropWhile pyIsSpace).reverse := List.dropWhile_suffix pyIsSpace
  have h2 : ((l.dropWhile pyIsSpace).reverse.dropWhile pyIsSpace).reverse <+:
      (l.dropWhile pyIsSpace).reverse.reverse := List.reverse_prefix.2 h
  simpa using h2

theorem pyStrip_head_not (l : List Char) (c : Char)
    (h : (pyStrip l).head? = some c) : pyIsSpace c = false := by
  rcases pyStrip_prefixOfDrop l with ⟨t, ht⟩
  have : (l.dropWhile pyIsSpace).head? = some c := by
    rw [← ht]
    cases hs : pyStrip l with
    | nil => rw [hs] at h; simp at h
    | cons a b =>
        rw [hs] at h
        simp at h
        subst h
        simp
  exact dropWhile_head_not pyIsSpace l c this

theorem pyStrip_getLast_not (l : List Char) (c : Char)
    (h : (pyStrip l).getLast? = some c) : pyIsSpace c = false := by
  unfold pyStrip at h
  rw [List.getLast?_reverse] at h
  exact dropWhile_head_not pyIsSpace _ c h

theorem pyStrip_sublist (l : List Char) : List.Sublist (pyStrip l) l :=
  ((pyStrip_prefixOfDrop l).sublist).trans (List.dropWhile_sublist pyIsSpace)

theorem pyStrip_chain {R : Char → Char → Prop} (l : List Char)
    (h : List.Chain' R l) : List.Chain' R (pyStrip l) :=
  List.Chain'.prefix (h.suffix (List.dropWhile_suffix pyIsSpace)) (pyStrip_prefixOfDrop l)

theorem dropWhile_map_fold (l : List Char) :
    (l.map foldChar).dropWhile pyIsSpace = (l.dropWhile pyIsSpace).map foldChar := by
  rw [List.dropWhile_map]
  have hp : pyIsSpace ∘ foldChar = pyIsSpace := funext foldChar_space
  rw [hp]

theorem collapseAux_map_fold (l : List Char) :
    ∀ b, collapseAux b (l.map foldChar) = (collapseAux b l).map foldChar := by
  induction l with
  | nil => intro b; rfl
  | cons a l ih =>
      intro b
      rw [List.map_cons]
      unfold collapseAux
      rw [foldChar_space]
      by_cases ha : pyIsSpace a = true
      · rw [if_pos ha, if_pos ha]
        cases b with
        | true => exact ih true
        | false =>
            simp only [Bool.false_eq_true, if_false]
            rw [List.map_cons, ih true]
            rfl
      · rw [if_neg ha, if_neg ha, List.map_cons, ih false]

theorem collapseWS_map_fold (l : List Char) :
    collapseWS (l.map foldChar) = (collapseWS l).map foldChar :=
  collapseAux_map_fold l false

theorem pyStrip_map_fold (l : List Char) :
    pyStrip (l.map foldChar) = (pyStrip l).map foldChar := by
  unfold pyStrip
  rw [dropWhile_map_fold, ← List.map_reverse, dropWhile_map_fold, List.map_reverse]

theorem normalize_title_data (s : String) (h : s ≠ "") :
    (normalize_title (some s)).data = (pyStrip (collapseWS s.data)).map foldChar := by
  show ((if s = "" then "" else ⟨(pyStrip (collapseWS s.data)).map foldChar⟩ : String)).data = _
  rw [if_neg h]

/-- C5: title normalization maps "Buy  milk", "buy milk" and " Buy Milk "
to the single canonical string "buy milk"; absent and empty input
normalize to the empty string (never a sentinel like "null"); and for
every input the result is trimmed (no leading or trailing whitespace),
collapsed (whitespace only as single spaces, never adjacent), and
case-folded (fixed under folding, and folding the input first does not
change the result). -/
theorem C5_title_normalization :
    normalize_title (some "Buy  milk") = "buy milk" ∧
    normalize_title (some "buy milk") = "buy milk" ∧
    normalize_title (some " Buy Milk ") = "buy milk" ∧
    normalize_title none = "" ∧
    normalize_title (some "") = "" ∧
    ("" : String) ≠ "null" ∧
    (∀ s c, (normalize_title (some s)).data.head? = some c → pyIsSpace c = false) ∧
    (∀ s c, (normalize_title (some s)).data.getLast? = some c → pyIsSpace c = false) ∧
    (∀ s, List.Chain' (fun a b => ¬(pyIsSpace a = true ∧ pyIsSpace b = true))
       (normalize_title (some s)).data) ∧
    (∀ s, ∀ c ∈ (normalize_title (some s)).data, pyIsSpace c = true → c = ' ') ∧
    (∀ s, (normalize_title (some s)).data.map foldChar = (normalize_title (some s)).data) ∧
    (∀ s : String, normalize_title (some ⟨s.data.map foldChar⟩) = normalize_title (some s)) := by
  refine ⟨by decide, by decide, by decide, rfl, rfl, by decide, ?_, ?_, ?_, ?_, ?_, ?_⟩
  · intro s c h
    by_cases hs : s = ""
    · subst hs; simp [normalize_title] at h
    · rw [normalize_title_data s hs, List.head?_map] at h
      match hh : (pyStrip (collapseWS s.data)).head? with
      | none => rw [hh] at h; simp at h
      | some d =>
          rw [hh] at h
          simp at h
          rw [← h, foldChar_space]
          exact pyStrip_head_not _ d hh
  · intro s c h
    by_cases hs : s = ""
    · subst hs; simp [normalize_title] at h
    · rw [normalize_title_data s hs, List.getLast?_map] at h
      match hh : (pyStrip (collapseWS s.data)).getLast? with
      | none => rw [hh] at h; simp at h
      | some d =>
          rw [hh] at h
          simp at h
          rw [← h, foldChar_space]
          exact pyStrip_getLast_not _ d hh
  · intro s
    by_cases hs : s = ""
    · subst hs; simp [normalize_title]
    · rw [normalize_title_data s hs]
      rw [List.chain'_map]
      refine (pyStrip_chain _ (collapseWS_chain s.data)).imp ?_
      intro a b hab
      rw [foldChar_space, foldChar_space]
      exact hab
  · intro s c hc hsp
    by_cases hs : s = ""
    · subst hs; simp [normalize_title] at hc
    · rw [normalize_title_data s hs] at hc
      rcases List.mem_map.1 hc with ⟨d, hd, rfl⟩
      have hd2 : d ∈ collapseWS s.data := (pyStrip_sublist _).subset hd
      have hd3 : pyIsSpace d = true := by rw [← foldChar_space]; exact hsp
      have : d = ' ' := collapseWS_space_mem s.data d hd2 hd3
      subst this
      rfl
  · intro s
    by_cases hs : s = ""
    · subst hs; simp [normalize_title]
    · rw [normalize_title_data s hs, List.map_map]
      have : foldChar ∘ foldChar = foldChar := funext foldChar_idem
      rw [this]
  · intro s
    by_cases hs : s = ""
    · subst hs; simp [normalize_title]
    · have hs2 : (⟨s.data.map foldChar⟩ : String) ≠ "" := by
        intro he
        apply hs
        have : s.data.map foldChar = [] := congrArg String.data he
        rcases List.map_eq_nil_iff.1 this with h
        exact String.ext h
      apply String.ext
      rw [normalize_title_data _ hs2, normalize_title_data s hs]
      show (pyStrip (collapseWS (s.data.map foldChar))).map foldChar = _
      rw [collapseWS_map_fold, pyStrip_map_fold, List.map_map]
      have hff : foldChar ∘ foldChar = foldChar := funext foldChar_idem
      rw [hff]

theorem C5_title_normalization_witness :
    ((normalize_title (some " Buy  Milk ")).data.head? = some 'b') ∧
    pyIsSpace 'b' = false :=
  ⟨by decide, C5_title_normalization.2.2.2.2.2.2.1 " Buy  Milk " 'b' (by decide)⟩

/-! ### Stable-sort lemmas for C7 and C10 -/

theorem mem_insertByIntKeyDesc {α : Type} (key : α → Int) (a x : α) (l : List α) :
    x ∈ insertByIntKeyDesc key a l ↔ x = a ∨ x ∈ l := by
  induction l with
  | nil => simp [insertByIntKeyDesc]
  | cons b bs ih =>
      unfold insertByIntKeyDesc
      by_cases h : key a ≤ key b
      · rw [if_pos h]
        simp only [List.mem_cons, ih]
        tauto
      · rw [if_neg h]
        simp only [List.mem_cons]

theorem pairwise_insertByIntKeyDesc {α : Type} (key : α → Int) (a : α) (l : List α)
    (h : List.Pairwise (fun x y => key y ≤ key x) l) :
    List.Pairwise (fun x y => key y ≤ key x) (insertByIntKeyDesc key a l) := by
  induction l with
  | nil => simp [insertByIntKeyDesc]
  | cons b bs ih =>
      rcases List.pairwise_cons.1 h with ⟨hb, hbs⟩
      unfold insertByIntKeyDesc
      by_cases hab : key a ≤ key b
      · rw [if_pos hab, List.pairwise_cons]
        refine ⟨?_, ih hbs⟩
        intro y hy
        rcases (mem_insertByIntKeyDesc key a y bs).1 hy with rfl | hy
        · exact hab
        · exact hb y hy
      · rw [if_neg hab, List.pairwise_cons]
        refine ⟨?_, h⟩
        intro y hy
        rcases List.mem_cons.1 hy with rfl | hy
        · omega
        · have := hb y hy
          omega

theorem foldl_insertDesc_pairwise {α : Type} (key : α → Int) (l : List α) :
    ∀ acc, List.Pairwise (fun x y => key y ≤ key x) acc →
      List.Pairwise (fun x y => key y ≤ key x)
        (l.foldl (fun acc a => insertByIntKeyDesc key a acc) acc) := by
  induction l with
  | nil => intro acc h; exact h
  | cons a l ih =>
      intro acc h
      exact ih _ (pairwise_insertByIntKeyDesc key a acc h)

theorem sortByIntKeyDesc_pairwise {α : Type} (key : α → Int) (l : List α) :
    List.Pairwise (fun x y => key y ≤ key x) (sortByIntKeyDesc key l) :=
  foldl_insertDesc_pairwise key l [] (by simp)

theorem mem_foldl_insertDesc {α : Type} (key : α → Int) (l : List α) :
    ∀ acc x, x ∈ l.foldl (fun acc a => insertByIntKeyDesc key a acc) acc ↔
      x ∈ acc ∨ x ∈ l := by
  induction l with
  | nil => intro acc x; simp
  | cons a l ih =>
      intro acc x
      rw [List.foldl_cons, ih, mem_insertByIntKeyDesc]
      simp only [List.mem_cons]
      tauto


theorem mem_sortByIntKeyDesc {α : Type} (key : α → Int) (l : List α) (x : α) :
    x ∈ sortByIntKeyDesc key l ↔ x ∈ l := by
  rw [sortByIntKeyDesc, mem_foldl_insertDesc]
  simp

theorem insertByIntKeyDesc_top {α : Type} (key : α → Int) (a : α) (l : List α)
    (h : ∀ x ∈ l, key x < key a) : insertByIntKeyDesc key a l = a :: l := by
  cases l with
  | nil => rfl
  | cons b bs =>
      unfold insertByIntKeyDesc
      rw [if_neg]
      have := h b (List.mem_cons_self b bs)
      omega

theorem sortByIntKeyDesc_append_one {α : Type} (key : α → Int) (l : List α) (a : α) :
    sortByIntKeyDesc key (l ++ [a]) = insertByIntKeyDesc key a (sortByIntKeyDesc key l) := by
  unfold sortByIntKeyDesc
  rw [List.foldl_append]
  rfl

/-- C7: loading history returns at most the configured maximum number of
turns; the selected rows are in chronological order; every selected row is
at least as recent as every row the cap dropped; and after persisting a
human turn and then a model turn with fresh increasing timestamps, loading
returns them last, in that order. -/
theorem C7_memory_ordering :
    (∀ db uid sid N, (load_history_for_user db uid sid N).length ≤ N) ∧
    (∀ db uid sid N, List.Pairwise (fun a b => a.created_at ≤ b.created_at)
        (load_rows db uid sid N)) ∧
    (∀ db uid sid N, ∀ x ∈ load_rows db uid sid N,
      ∀ y ∈ (sortByIntKeyDesc (fun r => r.created_at)
          (db.filter (fun r => r.user_id == uid && r.session_id == sid))).drop N,
        y.created_at ≤ x.created_at) ∧
    (∀ db uid sid u a t1 t2 N, (∀ r ∈ db, r.created_at < t1) → t1 < t2 → 2 ≤ N →
      ∃ pre, load_history_for_user (persist_turn db uid sid u a t1 t2) uid sid N =
        pre ++ [ChatMsg.human u, ChatMsg.ai a]) := by
  refine ⟨?_, ?_, ?_, ?_⟩
  · intro db uid sid N
    calc (load_history_for_user db uid sid N).length
        ≤ (load_rows db uid sid N).length := List.length_filterMap_le _ _
      _ ≤ N := by
          unfold load_rows
          rw [List.length_reverse, List.length_take]
          omega
  · intro db uid sid N
    unfold load_rows
    rw [List.pairwise_reverse]
    have hp := sortByIntKeyDesc_pairwise (fun r : ChatRow => r.created_at)
      (db.filter (fun r => r.user_id == uid && r.session_id == sid))
    exact List.Pairwise.sublist (List.take_sublist N _) hp
  · intro db uid sid N x hx y hy
    have hx2 : x ∈ (sortByIntKeyDesc (fun r : ChatRow => r.created_at)
        (db.filter (fun r => r.user_id == uid && r.session_id == sid))).take N := by
      unfold load_rows at hx
      exact List.mem_reverse.1 hx
    have hp := sortByIntKeyDesc_pairwise (fun r : ChatRow => r.created_at)
      (db.filter (fun r => r.user_id == uid && r.session_id == sid))
    rw [← List.take_append_drop N (sortByIntKeyDesc _ _), List.pairwise_append] at hp
    exact hp.2.2 x hx2 y hy
  · intro db uid sid u a t1 t2 N hdb ht hN
    set r1 : ChatRow := ⟨uid, sid, "human", u, t1⟩ with hr1
    set r2 : ChatRow := ⟨uid, sid, "ai", a, t2⟩ with hr2
    have hfilter : (persist_turn db uid sid u a t1 t2).filter
        (fun r => r.user_id == uid && r.session_id == sid) =
        db.filter (fun r => r.user_id == uid && r.session_id == sid) ++ [r1, r2] := by
      unfold persist_turn
      rw [List.filter_append]
      congr 1
      simp [hr1, hr2]
    set l := db.filter (fun r => r.user_id == uid && r.session_id == sid) with hl
    have hmem : ∀ x ∈ sortByIntKeyDesc (fun r : ChatRow => r.created_at) l,
        x.created_at < t1 := by
      intro x hx
      have := (mem_sortByIntKeyDesc _ l x).1 hx
      exact hdb x (List.mem_of_mem_filter this)
    have hr1c : r1.created_at = t1 := rfl
    have hr2c : r2.created_at = t2 := rfl
    have hsort : sortByIntKeyDesc (fun r : ChatRow => r.created_at) (l ++ [r1, r2]) =
        r2 :: r1 :: sortByIntKeyDesc (fun r : ChatRow => r.created_at) l := by
      have h12 : l ++ [r1, r2] = (l ++ [r1]) ++ [r2] := by simp
      rw [h12, sortByIntKeyDesc_append_one, sortByIntKeyDesc_append_one]
      rw [insertByIntKeyDesc_top _ r1 _ (by intro x hx; rw [hr1c]; exact hmem x hx)]
      have htop2 : insertByIntKeyDesc (fun r : ChatRow => r.created_at) r2
          (r1 :: sortByIntKeyDesc (fun r : ChatRow => r.created_at) l) =
          r2 :: r1 :: sortByIntKeyDesc (fun r : ChatRow => r.created_at) l := by
        apply insertByIntKeyDesc_top
        intro x hx
        rcases List.mem_cons.1 hx with rfl | hx
        · omega
        · have := hmem x hx
          omega
      rw [htop2]
    obtain ⟨m, rfl⟩ : ∃ m, N = m + 2 := ⟨N - 2, by omega⟩
    unfold load_history_for_user load_rows
    dsimp only
    rw [hfilter, hsort]
    rw [show m + 2 = (m + 1) + 1 from rfl]
    rw [List.take_succ_cons, List.take_succ_cons]
    rw [List.reverse_cons, List.reverse_cons, List.append_assoc]
    unfold rows_to_chat_history
    rw [List.filterMap_append]
    exact ⟨_, rfl⟩

/-- C9: every event `add_event` creates satisfies `end_datetime >
start_datetime`: a non-all-day event whose parsed end is at or before its
parsed start gets end replaced by start plus one hour, a non-all-day event
with a positive interval is stored as parsed, and an all-day event spans
exactly one day, from local midnight of the start date to the following
midnight; every record in the post-state either pre-existed or carries
exactly the adjusted interval for the bound user. -/
theorem C9_add_event_interval (s e : Int) (all_day : Bool) :
    (add_event_times s e all_day).1 < (add_event_times s e all_day).2 ∧
    (all_day = false → e ≤ s → add_event_times s e all_day = (s, s + 3600000000)) ∧
    (all_day = false → s < e → add_event_times s e all_day = (s, e)) ∧
    (all_day = true →
      (add_event_times s e all_day).1 = s / 86400000000 * 86400000000 ∧
      (add_event_times s e all_day).2 = (add_event_times s e all_day).1 + 86400000000) ∧
    (∀ uid title desc db ev,
      ev ∈ (add_event_do uid title (add_event_times s e all_day).1
              (add_event_times s e all_day).2 all_day desc db).1 →
        ev ∈ db ∨ (ev.user_id = uid ∧
          ev.start_datetime = (add_event_times s e all_day).1 ∧
          ev.end_datetime = (add_event_times s e all_day).2)) := by
  refine ⟨?_, ?_, ?_, ?_, ?_⟩
  · unfold add_event_times
    by_cases ha : all_day
    · rw [if_pos ha]
      dsimp only
      omega
    · rw [if_neg ha]
      by_cases hle : e ≤ s
      · rw [if_pos hle]
        dsimp only
        omega
      · rw [if_neg hle]
        dsimp only
        omega
  · intro ha hle
    subst ha
    unfold add_event_times
    rw [if_neg (by simp), if_pos hle]
  · intro ha hlt
    subst ha
    unfold add_event_times
    rw [if_neg (by simp), if_neg (by omega)]
  · intro ha
    subst ha
    unfold add_event_times
    rw [if_pos rfl]
    exact ⟨rfl, rfl⟩
  · intro uid title desc db ev hev
    simp only [add_event_do] at hev
    revert hev
    split
    · intro hev
      exact Or.inl hev
    · intro hev
      dsimp only at hev
      rcases List.mem_append.1 hev with hev | hev
      · exact Or.inl hev
      · rcases List.mem_singleton.1 hev with rfl
        exact Or.inr ⟨rfl, rfl, rfl⟩

theorem C9_add_event_interval_witness :
    (false = false ∧ (0 : Int) ≤ 0) ∧
    add_event_times 0 0 false = (0, 3600000000) :=
  ⟨⟨rfl, by decide⟩, (C9_add_event_interval 0 0 false).2.1 rfl (by decide)⟩

theorem filter_insert_other {α : Type} (p : α → Bool) (db1 db2 : List α) (r : α)
    (h : p r = false) :
    (db1 ++ r :: db2).filter p = (db1 ++ db2).filter p := by
  rw [List.filter_append, List.filter_append, List.filter_cons, h]
  simp

/-- C10: every tool `make_user_tools` binds operates only on the bound
user's records: inserting (equivalently, removing) a record belonging to a
different user anywhere in the store leaves the output of each read tool —
`get_tasks`, `get_events`, `search_knowledge` and `analyze_stats` —
unchanged, and every creation body only ever adds records attached to the
bound user: tasks, events and subjects carry the bound user id directly,
and a created note hangs off a subject owned by the bound user. -/
theorem C10_user_scoping :
    (∀ db1 db2 (r : TaskRec) uid sdate edate maxr, r.user_id ≠ uid →
      get_tasks (db1 ++ r :: db2) uid sdate edate maxr =
        get_tasks (db1 ++ db2) uid sdate edate maxr) ∧
    (∀ db1 db2 (r : EventRec) uid sl el maxr, r.user_id ≠ uid →
      get_events (db1 ++ r :: db2) uid sl el maxr =
        get_events (db1 ++ db2) uid sl el maxr) ∧
    (∀ st1 st2 (d : DocRec) uid k, d.user_id ≠ uid →
      search_knowledge (st1 ++ d :: st2) uid k = search_knowledge (st1 ++ st2) uid k) ∧
    (∀ uid title task_type now db t,
      t ∈ (add_task_do uid title task_type now db).1 → t ∈ db ∨ t.user_id = uid) ∧
    (∀ uid title s' e' ad desc db ev,
      ev ∈ (add_event_do uid title s' e' ad desc db).1 → ev ∈ db ∨ ev.user_id = uid) ∧
    (∀ uid title fresh_id db sr,
      sr ∈ (add_subject_do uid title fresh_id db).1 → sr ∈ db ∨ sr.user_id = uid) ∧
    (∀ db1 db2 (r : TaskRec) uid q, r.user_id ≠ uid →
      analyze_stats (db1 ++ r :: db2) uid q = analyze_stats (db1 ++ db2) uid q) ∧
    (∀ uid subject_title title body fresh_id st (n : NoteRec),
      n ∈ (add_note_do uid subject_title title body fresh_id st).1.2 →
        n ∈ st.2 ∨ ∃ subj, subj ∈ st.1 ∧ subj.user_id = uid ∧ n.subject_id = subj.id) := by
  refine ⟨?_, ?_, ?_, ?_, ?_, ?_, ?_, ?_⟩
  · intro db1 db2 r uid sdate edate maxr hne
    have hr : ((fun t : TaskRec => t.user_id == uid) r) = false := by simp [hne]
    rcases hp : parseDateYMD sdate with _ | sd <;>
      rcases he : parseDateYMD edate with _ | ed <;>
        simp only [get_tasks, hp, he]
    rw [filter_insert_other _ db1 db2 r hr]
  · intro db1 db2 r uid sl el maxr hne
    have hr : ((fun ev : EventRec => ev.user_id == uid) r) = false := by simp [hne]
    simp only [get_events]
    rw [filter_insert_other _ db1 db2 r hr]
  · intro st1 st2 d uid k hne
    have hr : ((fun d : DocRec => d.user_id == uid) d) = false := by simp [hne]
    simp only [search_knowledge, retrieve]
    rw [filter_insert_other _ st1 st2 d hr]
  · intro uid title task_type now db t ht
    unfold add_task_do at ht
    revert ht
    split
    · intro ht
      exact Or.inl ht
    · intro ht
      dsimp only at ht
      rcases List.mem_append.1 ht with ht | ht
      · exact Or.inl ht
      · rcases List.mem_singleton.1 ht with rfl
        exact Or.inr rfl
  · intro uid title s' e' ad desc db ev hev
    simp only [add_event_do] at hev
    revert hev
    split
    · intro hev
      exact Or.inl hev
    · intro hev
      dsimp only at hev
      rcases List.mem_append.1 hev with hev | hev
      · exact Or.inl hev
      · rcases List.mem_singleton.1 hev with rfl
        exact Or.inr rfl
  · intro uid title fresh_id db sr hsr
    unfold add_subject_do at hsr
    revert hsr
    split
    · intro hsr
      exact Or.inl hsr
    · intro hsr
      dsimp only at hsr
      rcases List.mem_append.1 hsr with hsr | hsr
      · exact Or.inl hsr
      · rcases List.mem_singleton.1 hsr with rfl
        exact Or.inr rfl
  · intro db1 db2 r uid q hne
    have hr : ((fun t : TaskRec => t.user_id == uid) r) = false := by simp [hne]
    unfold analyze_stats get_completion_rate get_completed_daily_tasks_count
    rw [filter_insert_other _ db1 db2 r hr]
  · intro uid subject_title title body fresh_id st n hn
    unfold add_note_do at hn
    revert hn
    split
    · intro hn
      exact Or.inl hn
    next subj hfind =>
      intro hn
      dsimp only at hn
      rcases List.mem_append.1 hn with hn | hn
      · exact Or.inl hn
      · rcases List.mem_singleton.1 hn with rfl
        have hp := List.find?_some hfind
        simp only [Bool.and_eq_true, beq_iff_eq] at hp
        exact Or.inr ⟨subj, List.mem_of_find?_eq_some hfind, hp.1, rfl⟩

/-! ### Serialization lemmas for C4 -/

theorem hexVal_hexDigit : ∀ n, n < 16 → hexVal (hexDigit n) = n := by decide

/-- The escaping is uniquely decodable: decoding an escaped character at
the head of any stream recovers that character. -/
theorem jsonUnesc_escChar (c : Char) (rest : List Char) :
    jsonUnesc (jsonEscChar c ++ rest) = c :: jsonUnesc rest := by
  unfold jsonEscChar
  by_cases h1 : c = '\\'
  · subst h1; simp [jsonUnesc, unescPair]
  · rw [if_neg h1]
    by_cases h2 : c = '"'
    · subst h2; simp [jsonUnesc, unescPair]
    · rw [if_neg h2]
      by_cases h3 : c = '\n'
      · subst h3; simp [jsonUnesc, unescPair]
      · rw [if_neg h3]
        by_cases h4 : c = '\r'
        · subst h4; simp [jsonUnesc, unescPair]
        · rw [if_neg h4]
          by_cases h5 : c = '\t'
          · subst h5; simp [jsonUnesc, unescPair]
          · rw [if_neg h5]
            by_cases h6 : c.toNat = 8
            · rw [if_pos h6]
              have hc : c = '\x08' := char_toNat_inj (by rw [h6]; rfl)
              subst hc
              simp [jsonUnesc, unescPair]
            · rw [if_neg h6]
              by_cases h7 : c.toNat = 12
              · rw [if_pos h7]
                have hc : c = '\x0c' := char_toNat_inj (by rw [h7]; rfl)
                subst hc
                simp [jsonUnesc, unescPair]
              · rw [if_neg h7]
                by_cases h8 : c.toNat < 32
                · rw [if_pos h8]
                  show jsonUnesc ('\\' :: 'u' :: '0' :: '0' ::
                    hexDigit (c.toNat / 16) :: hexDigit (c.toNat % 16) :: rest) = _
                  rw [show jsonUnesc ('\\' :: 'u' :: '0' :: '0' ::
                      hexDigit (c.toNat / 16) :: hexDigit (c.toNat % 16) :: rest) =
                      Char.ofNat (hexVal (hexDigit (c.toNat / 16)) * 16 +
                        hexVal (hexDigit (c.toNat % 16))) :: jsonUnesc rest by
                    simp [jsonUnesc]]
                  rw [hexVal_hexDigit _ (by omega), hexVal_hexDigit _ (by omega)]
                  rw [show c.toNat / 16 * 16 + c.toNat % 16 = c.toNat by omega]
                  rw [Char.ofNat_toNat]
                · rw [if_neg h8]
                  show jsonUnesc (c :: rest) = c :: jsonUnesc rest
                  simp [jsonUnesc, h1]

/-- Decoding an escaped string at the head of any stream recovers it. -/
theorem jsonUnesc_escape (l rest : List Char) :
    jsonUnesc (l.flatMap jsonEscChar ++ rest) = l ++ jsonUnesc rest := by
  induction l with
  | nil => simp
  | cons c l ih =>
      rw [List.flatMap_cons, List.append_assoc, jsonUnesc_escChar, ih]
      rfl

/-- JSON string escaping is injective even in context: equal streams with
a common literal suffix force equal sources. -/
theorem jsonEscape_inj_of_append (r1 r2 : String) (t : List Char)
    (h : (jsonEscape r1).data ++ t = (jsonEscape r2).data ++ t) : r1 = r2 := by
  have h2 : (jsonEscape r1).data = (jsonEscape r2).data := List.append_cancel_right h
  have h3 : r1.data.flatMap jsonEscChar = r2.data.flatMap jsonEscChar := h2
  have h4 := congrArg jsonUnesc (congrArg (· ++ ([] : List Char)) h3)
  simp only [jsonUnesc_escape] at h4
  apply String.ext
  simpa using h4

/-- Distinct request identities serialize to distinct key payloads. -/
theorem stable_json_payload_request_inj (uid : Int) (r1 r2 tool : String)
    (sig : List (String × String)) (h : r1 ≠ r2) :
    stable_json_payload uid r1 tool sig ≠ stable_json_payload uid r2 tool sig := by
  intro heq
  apply h
  have hd := congrArg String.data heq
  simp only [stable_json_payload, jsonStr, String.data_append, List.append_assoc] at hd
  have h1 := List.append_cancel_left hd
  have h2 := List.append_cancel_left h1
  exact jsonEscape_inj_of_append r1 r2 _ h2

set_option maxRecDepth 8000 in
/-- C4: the idempotency key is a deterministic function of the 5-tuple
(protocol version 1, user identity, request identity, action name,
signature): equal tuples always give equal keys; distinct request
identities give distinct serialized payloads (the SHA-256 preimages) and,
concretely, distinct keys; and the same (action, signature) dispatched in
two distinct requests, each with its fresh request-scoped cache, executes
in both — deduplication never spans requests. -/
theorem C4_idempotency_key_scoping (ctx1 ctx2 : IdempotencyContext) (tool : String)
    (sig : List (String × String)) :
    (ctx1.user_id = ctx2.user_id → ctx1.request_id = ctx2.request_id →
      ctx1.make_key tool sig = ctx2.make_key tool sig) ∧
    (∀ uid r1 r2 tool' sig', r1 ≠ r2 →
      stable_json_payload uid r1 tool' sig' ≠ stable_json_payload uid r2 tool' sig') ∧
    (IdempotencyContext.make_key ⟨1, "request-a"⟩ "add_task" [("title", "x")] ≠
      IdempotencyContext.make_key ⟨1, "request-b"⟩ "add_task" [("title", "x")]) ∧
    (∀ (σ : Type) (fn : σ → σ × String) (s0 : σ),
      (ctx1.run tool sig fn (s0, [])).2 = (fn s0).2 ∧
      (ctx2.run tool sig fn (s0, [])).2 = (fn s0).2) := by
  refine ⟨?_, ?_, ?_, ?_⟩
  · intro hu hr
    unfold IdempotencyContext.make_key
    rw [hu, hr]
  · intro uid r1 r2 tool' sig' hne
    exact stable_json_payload_request_inj uid r1 r2 tool' sig' hne
  · decide
  · intro σ fn s0
    constructor
    · rw [run_miss ctx1 tool sig fn (s0, []) rfl]
    · rw [run_miss ctx2 tool sig fn (s0, []) rfl]

theorem C4_idempotency_key_scoping_witness :
    ((1 : Int) = 1 ∧ "r" = "r") ∧
    (IdempotencyContext.make_key ⟨1, "r"⟩ "add_task" [("title", "x")] =
      IdempotencyContext.make_key ⟨1, "r"⟩ "add_task" [("title", "x")]) ∧
    ("ra" ≠ "rb" ∧
      stable_json_payload 1 "ra" "add_task" [("title", "x")] ≠
        stable_json_payload 1 "rb" "add_task" [("title", "x")]) :=
  ⟨⟨rfl, rfl⟩,
   (C4_idempotency_key_scoping ⟨1, "r"⟩ ⟨1, "r"⟩ "add_task" [("title", "x")]).1 rfl rfl,
   ⟨by decide,
    (C4_idempotency_key_scoping ⟨1, "r"⟩ ⟨1, "r"⟩ "add_task" [("title", "x")]).2.1
      1 "ra" "rb" "add_task" [("title", "x")] (by decide)⟩⟩

theorem C10_user_scoping_witness :
    ((2 : Int) ≠ 1) ∧
    get_tasks [⟨2, "other task", "daily", "", 0⟩] 1 "2025-01-01" "2025-01-02" 50 =
      get_tasks [] 1 "2025-01-01" "2025-01-02" 50 :=
  ⟨by decide,
   C10_user_scoping.1 [] [] ⟨2, "other task", "daily", "", 0⟩ 1
     "2025-01-01" "2025-01-02" 50 (by decide)⟩

theorem C7_memory_ordering_witness :
    ((∀ r ∈ ([] : List ChatRow), r.created_at < 10) ∧ (10 : Int) < 11 ∧ 2 ≤ 6) ∧
    (∃ pre, load_history_for_user (persist_turn [] 1 "default" "hello" "hi there" 10 11)
        1 "default" 6 = pre ++ [ChatMsg.human "hello", ChatMsg.ai "hi there"]) :=
  ⟨⟨by simp, by decide, by decide⟩,
   C7_memory_ordering.2.2.2 [] 1 "default" "hello" "hi there" 10 11 6
     (by simp) (by decide) (by decide)⟩

example : civilFromDays 0 = (1970, 1, 1) := by decide
example : civilFromDays 20102 = (2025, 1, 14) := by decide
example : daysFromCivil 2025 1 14 = 20102 := by decide
example : renderLocalMinute 1736860800000000 = "2025-01-14T13:20" := by decide
-- 2025-01-14 12:00:00 UTC = 14:00 IST (winter, UTC+2)
example : canonical_local_minute 1736856000000000 = "2025-01-14T14:00" := by decide
-- 2025-07-14 11:00:00 UTC = 14:00 IDT (summer, UTC+3)
example : canonical_local_minute 1752490800000000 = "2025-07-14T14:00" := by decide

/-! ### Calendar lemmas for C6 -/

theorem doeOf_le (z : Int) : doeOf z ≤ 146096 := by
  unfold doeOf
  omega

theorem era_doe (z : Int) : eraOf z * 146097 + (doeOf z : Int) = z + 719468 := by
  unfold eraOf doeOf
  omega

theorem yoeOfDoe_facts (doe : Nat) (h : doe ≤ 146096) :
    yoeOfDoe doe ≤ 399 ∧ fdOfYoe (yoeOfDoe doe) ≤ doe ∧ doyOfDoe doe ≤ 365 := by
  unfold doyOfDoe yoeOfDoe fdOfYoe
  dsimp only
  by_cases h1 : doe < 365 * (doe / 365) + (doe / 365) / 4 - (doe / 365) / 100
  · rw [if_pos h1]
    by_cases h2 : 400 ≤ doe / 365 - 1
    · rw [if_pos h2]; omega
    · rw [if_neg h2]; omega
  · rw [if_neg h1]
    by_cases h2 : 400 ≤ doe / 365
    · rw [if_pos h2]; omega
    · rw [if_neg h2]; omega

theorem month_day_roundtrip (doy : Nat) (h : doy ≤ 365) :
    (if 2 < monthOfDoy doy then monthOfDoy doy - 3 else monthOfDoy doy + 9) = mpOfDoy doy ∧
    (153 * mpOfDoy doy + 2) / 5 + dayOfDoy doy - 1 = doy ∧
    (monthOfDoy doy ≤ 2 ↔ 10 ≤ mpOfDoy doy) ∧
    1 ≤ monthOfDoy doy ∧ monthOfDoy doy ≤ 12 ∧
    1 ≤ dayOfDoy doy ∧ dayOfDoy doy ≤ 31 := by
  unfold monthOfDoy dayOfDoy mpOfDoy
  by_cases hmp : (5 * doy + 2) / 153 < 10
  · rw [if_pos hmp]
    rw [if_pos (by omega : 2 < (5 * doy + 2) / 153 + 3)]
    refine ⟨by omega, by omega, by omega, by omega, by omega, by omega, by omega⟩
  · rw [if_neg hmp]
    rw [if_neg (by omega : ¬ 2 < (5 * doy + 2) / 153 - 9)]
    refine ⟨by omega, by omega, by omega, by omega, by omega, by omega, by omega⟩

/-- The civil conversion is inverted by `daysFromCivil`: day numbers are
recoverable from rendered dates. -/
theorem daysFromCivil_civilFromDays (z : Int) :
    daysFromCivil (civilFromDays z).1 (civilFromDays z).2.1 (civilFromDays z).2.2 = z := by
  obtain ⟨hy, hfd, hdoyle⟩ := yoeOfDoe_facts (doeOf z) (doeOf_le z)
  obtain ⟨hmp', hday', hm2', _, _, _, _⟩ := month_day_roundtrip (doyOfDoe (doeOf z)) hdoyle
  have hD : doyOfDoe (doeOf z) = doeOf z - fdOfYoe (yoeOfDoe (doeOf z)) := rfl
  have hfde : fdOfYoe (yoeOfDoe (doeOf z)) =
      365 * yoeOfDoe (doeOf z) + yoeOfDoe (doeOf z) / 4 - yoeOfDoe (doeOf z) / 100 := rfl
  have hed := era_doe z
  unfold civilFromDays daysFromCivil
  dsimp only
  rw [hmp', hday']
  by_cases hm : monthOfDoy (doyOfDoe (doeOf z)) ≤ 2
  · simp only [if_pos hm]
    have e1 : (yoeOfDoe (doeOf z) : Int) + eraOf z * 400 + 1 - 1 =
        (yoeOfDoe (doeOf z) : Int) + eraOf z * 400 := by ring
    rw [e1]
    have hq : ((yoeOfDoe (doeOf z) : Int) + eraOf z * 400) / 400 = eraOf z := by omega
    have hr : (((yoeOfDoe (doeOf z) : Int) + eraOf z * 400) % 400).toNat =
        yoeOfDoe (doeOf z) := by omega
    rw [hq, hr]
    unfold fdOfYoe
    omega
  · simp only [if_neg hm]
    have e1 : (yoeOfDoe (doeOf z) : Int) + eraOf z * 400 + 0 =
        (yoeOfDoe (doeOf z) : Int) + eraOf z * 400 := by ring
    rw [e1]
    have hq : ((yoeOfDoe (doeOf z) : Int) + eraOf z * 400) / 400 = eraOf z := by omega
    have hr : (((yoeOfDoe (doeOf z) : Int) + eraOf z * 400) % 400).toNat =
        yoeOfDoe (doeOf z) := by omega
    rw [hq, hr]
    unfold fdOfYoe
    omega

theorem digitChar_inj {a b : Nat} (h : digitChar a = digitChar b) : a % 10 = b % 10 := by
  have h2 := congrArg Char.toNat h
  unfold digitChar at h2
  rw [charOfNat_toNat (by omega), charOfNat_toNat (by omega)] at h2
  omega

/-- The canonical rendering, character by character. -/
theorem renderLocalMinute_data (wus : Int) :
    (renderLocalMinute wus).data =
      [digitChar ((civilFromDays (wus / 86400000000)).1.toNat / 1000),
       digitChar ((civilFromDays (wus / 86400000000)).1.toNat / 100),
       digitChar ((civilFromDays (wus / 86400000000)).1.toNat / 10),
       digitChar ((civilFromDays (wus / 86400000000)).1.toNat),
       '-',
       digitChar ((civilFromDays (wus / 86400000000)).2.1 / 10),
       digitChar ((civilFromDays (wus / 86400000000)).2.1),
       '-',
       digitChar ((civilFromDays (wus / 86400000000)).2.2 / 10),
       digitChar ((civilFromDays (wus / 86400000000)).2.2),
       'T',
       digitChar ((wus % 86400000000).toNat / 3600000000 / 10),
       digitChar ((wus % 86400000000).toNat / 3600000000),
       ':',
       digitChar ((wus % 86400000000).toNat / 60000000 % 60 / 10),
       digitChar ((wus % 86400000000).toNat / 60000000 % 60)] := rfl

/-- Wall values in the same minute render identically. -/
theorem renderLocalMinute_eq_of_minute (w1 w2 : Int)
    (h : wallMinute w1 = wallMinute w2) :
    renderLocalMinute w1 = renderLocalMinute w2 := by
  unfold wallMinute at h
  unfold renderLocalMinute
  dsimp only
  have h1 : w1 / 86400000000 = w2 / 86400000000 := by omega
  have h2 : (w1 % 86400000000).toNat / 3600000000 =
      (w2 % 86400000000).toNat / 3600000000 := by omega
  have h3 : (w1 % 86400000000).toNat / 60000000 % 60 =
      (w2 % 86400000000).toNat / 60000000 % 60 := by omega
  rw [h1, h2, h3]

/-- Equal renderings force equal wall minutes (within the four-digit-year
range the `%Y` field is faithful on). -/
theorem renderLocalMinute_inj (w1 w2 : Int)
    (hy1l : 1000 ≤ (civilFromDays (w1 / 86400000000)).1)
    (hy1u : (civilFromDays (w1 / 86400000000)).1 ≤ 9999)
    (hy2l : 1000 ≤ (civilFromDays (w2 / 86400000000)).1)
    (hy2u : (civilFromDays (w2 / 86400000000)).1 ≤ 9999)
    (h : renderLocalMinute w1 = renderLocalMinute w2) :
    wallMinute w1 = wallMinute w2 := by
  obtain ⟨_, _, hdoy1⟩ := yoeOfDoe_facts (doeOf (w1 / 86400000000)) (doeOf_le _)
  obtain ⟨_, _, hdoy2⟩ := yoeOfDoe_facts (doeOf (w2 / 86400000000)) (doeOf_le _)
  obtain ⟨_, _, _, hm1a, hm1b, hd1a, hd1b⟩ := month_day_roundtrip _ hdoy1
  obtain ⟨_, _, _, hm2a, hm2b, hd2a, hd2b⟩ := month_day_roundtrip _ hdoy2
  have hM1 : (civilFromDays (w1 / 86400000000)).2.1 =
      monthOfDoy (doyOfDoe (doeOf (w1 / 86400000000))) := rfl
  have hM2 : (civilFromDays (w2 / 86400000000)).2.1 =
      monthOfDoy (doyOfDoe (doeOf (w2 / 86400000000))) := rfl
  have hD1 : (civilFromDays (w1 / 86400000000)).2.2 =
      dayOfDoy (doyOfDoe (doeOf (w1 / 86400000000))) := rfl
  have hD2 : (civilFromDays (w2 / 86400000000)).2.2 =
      dayOfDoy (doyOfDoe (doeOf (w2 / 86400000000))) := rfl
  have hd := congrArg String.data h
  rw [renderLocalMinute_data, renderLocalMinute_data] at hd
  simp only [List.cons.injEq, and_true] at hd
  obtain ⟨e1, e2, e3, e4, _, e6, e7, _, e9, e10, _, e12, e13, _, e15, e16⟩ := hd
  have y1 := digitChar_inj e1
  have y2 := digitChar_inj e2
  have y3 := digitChar_inj e3
  have y4 := digitChar_inj e4
  have m1 := digitChar_inj e6
  have m2 := digitChar_inj e7
  have d1 := digitChar_inj e9
  have d2 := digitChar_inj e10
  have hh1 := digitChar_inj e12
  have hh2 := digitChar_inj e13
  have mi1 := digitChar_inj e15
  have mi2 := digitChar_inj e16
  have hY : (civilFromDays (w1 / 86400000000)).1 =
      (civilFromDays (w2 / 86400000000)).1 := by omega
  have hM : (civilFromDays (w1 / 86400000000)).2.1 =
      (civilFromDays (w2 / 86400000000)).2.1 := by
    rw [hM1, hM2]
    rw [hM1] at m1 m2
    rw [hM2] at m1 m2
    omega
  have hD : (civilFromDays (w1 / 86400000000)).2.2 =
      (civilFromDays (w2 / 86400000000)).2.2 := by
    rw [hD1, hD2]
    rw [hD1] at d1 d2
    rw [hD2] at d1 d2
    omega
  have hdays : w1 / 86400000000 = w2 / 86400000000 := by
    have r1 := daysFromCivil_civilFromDays (w1 / 86400000000)
    have r2 := daysFromCivil_civilFromDays (w2 / 86400000000)
    rw [← r1, ← r2, hY, hM, hD]
  have hHour : (w1 % 86400000000).toNat / 3600000000 =
      (w2 % 86400000000).toNat / 3600000000 := by omega
  have hMin : (w1 % 86400000000).toNat / 60000000 % 60 =
      (w2 % 86400000000).toNat / 60000000 % 60 := by omega
  unfold wallMinute
  omega

/-- C6: temporal canonicalization converts the instant to the single fixed
Asia/Jerusalem zone, truncates to the minute, and renders the fixed-width
`YYYY-MM-DDTHH:MM` string: instants whose Jerusalem wall clocks fall in
the same minute canonicalize identically, instants in different wall
minutes (within the four-digit-year range) canonicalize differently, and
concretely `14:00:00` and `14:00:59.999999` agree while `14:01` differs. -/
theorem C6_temporal_canonicalization :
    (∀ t1 t2 : Int, wallMinute (ilWallUsec t1) = wallMinute (ilWallUsec t2) →
      canonical_local_minute t1 = canonical_local_minute t2) ∧
    (∀ t1 t2 : Int,
      1000 ≤ (civilFromDays (ilWallUsec t1 / 86400000000)).1 →
      (civilFromDays (ilWallUsec t1 / 86400000000)).1 ≤ 9999 →
      1000 ≤ (civilFromDays (ilWallUsec t2 / 86400000000)).1 →
      (civilFromDays (ilWallUsec t2 / 86400000000)).1 ≤ 9999 →
      wallMinute (ilWallUsec t1) ≠ wallMinute (ilWallUsec t2) →
      canonical_local_minute t1 ≠ canonical_local_minute t2) ∧
    canonical_local_minute 1736856000000000 = "2025-01-14T14:00" ∧
    canonical_local_minute 1736856059999999 = "2025-01-14T14:00" ∧
    canonical_local_minute 1736856060000000 = "2025-01-14T14:01" := by
  refine ⟨?_, ?_, by decide, by decide, by decide⟩
  · intro t1 t2 h
    exact renderLocalMinute_eq_of_minute _ _ h
  · intro t1 t2 h1l h1u h2l h2u hne heq
    exact hne (renderLocalMinute_inj _ _ h1l h1u h2l h2u heq)

theorem C6_temporal_canonicalization_witness :
    (1000 ≤ (civilFromDays (ilWallUsec 1736856000000000 / 86400000000)).1 ∧
     (civilFromDays (ilWallUsec 1736856000000000 / 86400000000)).1 ≤ 9999 ∧
     1000 ≤ (civilFromDays (ilWallUsec 1736856060000000 / 86400000000)).1 ∧
     (civilFromDays (ilWallUsec 1736856060000000 / 86400000000)).1 ≤ 9999 ∧
     wallMinute (ilWallUsec 1736856000000000) ≠ wallMinute (ilWallUsec 1736856060000000)) ∧
    (wallMinute (ilWallUsec 1736856000000000) = wallMinute (ilWallUsec 1736856059999999) ∧
     canonical_local_minute 1736856000000000 = canonical_local_minute 1736856059999999) ∧
    canonical_local_minute 1736856000000000 ≠ canonical_local_minute 1736856060000000 :=
  ⟨⟨by decide, by decide, by decide, by decide, by decide⟩,
   ⟨by decide,
    C6_temporal_canonicalization.1 1736856000000000 1736856059999999 (by decide)⟩,
   C6_temporal_canonicalization.2.1 1736856000000000 1736856060000000
     (by decide) (by decide) (by decide) (by decide) (by decide)⟩

end TaskIt
